import Mathlib

/-!
Verification development for the ShopBot repository.

The relational store (MySQL tables `items`, `carts`, `users`, `tickets`) is
embedded as a Lean state record; every buyer/admin operation of
`src/ui/views.py`, `src/cogs/shop.py`, `src/utils/webhook_server.py` that
mutates that store is translated into a pure state-transformation function.
Currency amounts (FLOAT columns holding USD values) are modelled as `ℚ`,
integer quantities as `ℤ`, message/row identifiers as `Nat`.
-/

namespace ShopBot

/-- Status column of the `carts` table (`views.py` uses the string values
`active`, `pending_payment`, `pending_manual_verification`, `paid`,
`completed`, `closed`). -/
inductive CartStatus where
  | active
  | pending_payment
  | pending_manual_verification
  | paid
  | completed
  | closed
deriving DecidableEq, Repr

/-- A row of the `items` table (id is the map key; fields used by the cart
logic: `price`, `name`, `quantity`). -/
structure Item where
  price : ℚ
  name : String
  quantity : ℤ
deriving DecidableEq, Repr

/-- One value of the `cart_data` JSON object:
`{item_id: {quantity, price, name}}`. -/
structure CartLine where
  quantity : ℤ
  price : ℚ
  name : String
deriving DecidableEq, Repr

/-- A row of the `carts` table.  `lines` is the decoded `cart_data` JSON
dictionary, as an association list keyed by item id. -/
structure Cart where
  id : Nat
  userId : Nat
  lines : List (Nat × CartLine)
  invoiceMessageId : Option Nat
  paymentId : Option String
  creditApplied : ℚ
  status : CartStatus
  paymentMethod : Option String
deriving DecidableEq, Repr

/-- A row of the `users` ledger table (fields used by the cart logic). -/
structure UserRow where
  balance : ℚ
  lifetimeSpent : ℚ
deriving DecidableEq, Repr

/-- The durable store state: `items` and `users` are keyed by primary key,
`carts` is the list of rows, `shopOpen` is the `shop_status` setting. -/
structure ShopState where
  items : Nat → Option Item
  carts : List Cart
  users : Nat → Option UserRow
  shopOpen : Bool

/-! ### Association-list operations for the `cart_data` JSON dictionary -/

/-- `cart.get(item_id)` on the decoded JSON dictionary. -/
def linesLookup : List (Nat × CartLine) → Nat → Option CartLine
  | [], _ => none
  | p :: ps, i => if p.1 = i then some p.2 else linesLookup ps i

/-- `cart.get(item_id, {}).get('quantity', 0)` (views.py:441). -/
def linesQty (ls : List (Nat × CartLine)) (i : Nat) : ℤ :=
  match linesLookup ls i with
  | some l => l.quantity
  | none => 0

/-- `cart[item_id] = line` — dictionary assignment: replace the existing
entry, else append a new one. -/
def linesSet : List (Nat × CartLine) → Nat → CartLine → List (Nat × CartLine)
  | [], i, l => [(i, l)]
  | p :: ps, i, l => if p.1 = i then (i, l) :: ps else p :: linesSet ps i l

/-- `del cart[item_id]` (views.py:445). -/
def linesDelete : List (Nat × CartLine) → Nat → List (Nat × CartLine)
  | [], _ => []
  | p :: ps, i => if p.1 = i then linesDelete ps i else p :: linesDelete ps i

/-- Total quantity recorded for item `i` over all entries with that key
(equals `linesQty` when the keys are distinct, as in a JSON dictionary). -/
def linesTotalQty : List (Nat × CartLine) → Nat → ℤ
  | [], _ => 0
  | p :: ps, i => (if p.1 = i then p.2.quantity else 0) + linesTotalQty ps i

/-- `sum(i['quantity'] * i['price'] for i in cart.values())`
(views.py:212, 251, 332, 447, 489). -/
def linesTotal : List (Nat × CartLine) → ℚ
  | [] => 0
  | p :: ps => (p.2.quantity : ℚ) * p.2.price + linesTotal ps

/-- Total price of a cart's contents. -/
def cartTotal (c : Cart) : ℚ := linesTotal c.lines

/-! ### Row lookup and update primitives (single SQL statements) -/

/-- `SELECT * FROM carts WHERE id = %s` (first row with the id). -/
def findCartIn : List Cart → Nat → Option Cart
  | [], _ => none
  | c :: cs, i => if c.id = i then some c else findCartIn cs i

def findCart (s : ShopState) (cartId : Nat) : Option Cart :=
  findCartIn s.carts cartId

/-- `SELECT * FROM carts WHERE user_id = %s AND status = 'active'`
(views.py:402). -/
def findActiveCartIn : List Cart → Nat → Option Cart
  | [], _ => none
  | c :: cs, u =>
    if c.userId = u ∧ c.status = CartStatus.active then some c
    else findActiveCartIn cs u

/-- `UPDATE carts SET ... WHERE id = %s`: apply `f` to every row whose id
matches. -/
def updateCarts : List Cart → Nat → (Cart → Cart) → List Cart
  | [], _, _ => []
  | c :: cs, i, f => (if c.id = i then f c else c) :: updateCarts cs i f

/-- `UPDATE items SET quantity = quantity + d WHERE id = %s` — a no-op when
no such item row exists. -/
def updateItems (items : Nat → Option Item) (i : Nat) (d : ℤ) : Nat → Option Item :=
  fun j => if j = i then (items i).map (fun it => { it with quantity := it.quantity + d }) else items j

/-- `UPDATE users SET ... WHERE id = %s` — a no-op when no such user row
exists. -/
def updateUsers (users : Nat → Option UserRow) (u : Nat) (f : UserRow → UserRow) :
    Nat → Option UserRow :=
  fun j => if j = u then (users u).map f else users j

/-- `INSERT INTO users (id, lifetime_spent) VALUES (%s, %s) ON DUPLICATE KEY
UPDATE lifetime_spent = lifetime_spent + %s` (views.py:335); a fresh row gets
the column default `balance = 0`. -/
def upsertLifetime (users : Nat → Option UserRow) (u : Nat) (d : ℚ) :
    Nat → Option UserRow :=
  fun j =>
    if j = u then
      some (match users u with
        | some r => { r with lifetimeSpent := r.lifetimeSpent + d }
        | none => { balance := 0, lifetimeSpent := d })
    else users j

/-! ### Observations -/

/-- Stock on hand of item `i` (0 when the row is absent). -/
def stockOf (s : ShopState) (i : Nat) : ℤ :=
  match s.items i with
  | some it => it.quantity
  | none => 0

/-- Store-credit balance of user `u` (0 when the row is absent). -/
def balanceOf (s : ShopState) (u : Nat) : ℚ :=
  match s.users u with
  | some r => r.balance
  | none => 0

/-- Lifetime spend of user `u` (0 when the row is absent). -/
def lifetimeOf (s : ShopState) (u : Nat) : ℚ :=
  match s.users u with
  | some r => r.lifetimeSpent
  | none => 0

/-- Status of the cart row with the given id. -/
def cartStatusOf (s : ShopState) (cartId : Nat) : Option CartStatus :=
  (findCart s cartId).map Cart.status

/-- `credit_applied` of the cart row with the given id (0 when absent). -/
def cartCreditOf (s : ShopState) (cartId : Nat) : ℚ :=
  match findCart s cartId with
  | some c => c.creditApplied
  | none => 0

/-- `invoice_message_id` of the cart row with the given id. -/
def cartInvoiceOf (s : ShopState) (cartId : Nat) : Option Nat :=
  match findCart s cartId with
  | some c => c.invoiceMessageId
  | none => none

/-! ### Operations translated from the source -/

/-- `cancel_invoice` (views.py:23-47).  The guard inspects the *snapshot*
dictionary that was fetched by the caller; when it holds an invoice
reference, one UPDATE clears `invoice_message_id`, `payment_id`,
`payment_method` and sets `status = 'active'` on the row with the
snapshot's id. -/
def cancelInvoice (s : ShopState) (cartSnap : Cart) : ShopState :=
  if cartSnap.invoiceMessageId.isSome then
    { s with carts := updateCarts s.carts cartSnap.id (fun c =>
        { c with invoiceMessageId := none, paymentId := none,
                 paymentMethod := none, status := CartStatus.active }) }
  else s

/-- `process_paid_order` (views.py:330-352): computes the snapshot's total,
upserts `lifetime_spent += total - credit_spent` for the owning user, and
sets the cart row's status to `paid`.  No status check is performed. -/
def processPaidOrder (s : ShopState) (cartSnap : Cart) (creditSpent : ℚ) : ShopState :=
  let total := cartTotal cartSnap
  let realMoneySpent := total - creditSpent
  { s with
    users := upsertLifetime s.users cartSnap.userId realMoneySpent,
    carts := updateCarts s.carts cartSnap.id (fun c => { c with status := CartStatus.paid }) }

/-- `CartView.apply_credit` (views.py:471-504).  Rejects when the shop is
closed, when the user row is missing, or when `amount > balance`; otherwise
debits `min(amount, total)` from the balance, adds it to the cart's
`credit_applied`, and — when the capped credit covers the whole total —
immediately runs `process_paid_order` on the previously fetched snapshot. -/
def applyCredit (s : ShopState) (userId cartId : Nat) (amount : ℚ) : ShopState :=
  if s.shopOpen = false then s
  else
    match s.users userId with
    | none => s
    | some u =>
      if amount > u.balance then s
      else
        match findCart s cartId with
        | none => s
        | some cart =>
          let total := cartTotal cart
          let creditToApply := min amount total
          let s1 := { s with users := updateUsers s.users userId (fun r => { r with balance := r.balance - creditToApply }) }
          let s2 := { s1 with carts := updateCarts s1.carts cartId (fun c => { c with creditApplied := c.creditApplied + creditToApply }) }
          if total - creditToApply ≤ 0 then processPaidOrder s2 cart creditToApply else s2

/-- A freshly inserted cart row
(`INSERT INTO carts (user_id, cart_data, last_activity)`, views.py:406):
all other columns take their schema defaults (`status 'active'`,
`credit_applied 0`, NULL references). -/
def newCart (cartId userId : Nat) : Cart :=
  { id := cartId, userId := userId, lines := [], invoiceMessageId := none,
    paymentId := none, creditApplied := 0, status := CartStatus.active,
    paymentMethod := none }

/-- Common tail of `ShopItemView.handle_cart_action` (views.py:427-458):
the stock UPDATE, the conditional `cancel_invoice` on the snapshot, and the
write-back of the recomputed `cart_data`. -/
def cartActionTail (s : ShopState) (cart : Cart) (itemId : Nat) (stockDelta : ℤ)
    (newLines : List (Nat × CartLine)) : ShopState :=
  let s2 := { s with items := updateItems s.items itemId stockDelta }
  let s3 := if cart.invoiceMessageId.isSome then cancelInvoice s2 cart else s2
  { s3 with carts := updateCarts s3.carts cart.id (fun c => { c with lines := newLines }) }

/-- `ShopItemView.handle_cart_action` (views.py:390-458).  `add` selects the
Add-to-Cart or Remove-from-Cart branch; `itemId` is the item resolved from
the shop message; `newCartId` is the AUTO_INCREMENT id when a cart row must
be created.  Rejections (closed shop, missing item, insufficient stock)
leave the store unchanged apart from a cart row that may already have been
inserted; an exception while resolving a missing item on the remove branch
aborts before the stock UPDATE. -/
def handleCartAction (s : ShopState) (userId itemId : Nat) (qty : ℤ) (add : Bool)
    (newCartId : Nat) : ShopState :=
  if s.shopOpen = false then s
  else
    let found := findActiveCartIn s.carts userId
    let cart := match found with
      | some c => c
      | none => newCart newCartId userId
    let s1 := match found with
      | some _ => s
      | none => { s with carts := s.carts ++ [newCart newCartId userId] }
    match add, s.items itemId with
    | true, none => s1
    | true, some it =>
      if it.quantity < qty then s1
      else
        cartActionTail s1 cart itemId (-qty)
          (linesSet cart.lines itemId
            { quantity := linesQty cart.lines itemId + qty, price := it.price, name := it.name })
    | false, none => s1
    | false, some _ =>
      cartActionTail s1 cart itemId qty
        (match linesLookup cart.lines itemId with
         | none => cart.lines
         | some l =>
           if l.quantity - qty ≤ 0 then linesDelete cart.lines itemId
           else linesSet cart.lines itemId { l with quantity := l.quantity - qty })

/-- `CartView.close_cart` (views.py:514-535): restore every line's quantity
to its item row, refund `credit_applied` to the owner when positive, set
the status to `closed`.  No status guard is performed. -/
def closeCart (s : ShopState) (cartId : Nat) : ShopState :=
  match findCart s cartId with
  | none => s
  | some cart =>
    let items1 := cart.lines.foldl (fun its p => updateItems its p.1 p.2.quantity) s.items
    let users1 :=
      if cart.creditApplied > 0 then
        updateUsers s.users cart.userId
          (fun r => { r with balance := r.balance + cart.creditApplied })
      else s.users
    { s with items := items1, users := users1,
             carts := updateCarts s.carts cartId (fun c => { c with status := CartStatus.closed }) }

/-- `LeaveReviewView.close_cart` (views.py:312-328): after delivery the
buyer archives the cart; the row's status is set to `completed`. -/
def completeCart (s : ShopState) (cartId : Nat) : ShopState :=
  match findCart s cartId with
  | none => s
  | some cart =>
    { s with carts := updateCarts s.carts cart.id (fun c => { c with status := CartStatus.completed }) }

/-- Outcome reported to the buyer by `PaymentMethodView.handle_checkout`. -/
inductive CheckoutOutcome where
  | noCart
  | alreadyProcessed
  | pendingExists
  | shopClosed
  | belowMinimum
  | paymentError
  | proceed
deriving DecidableEq, Repr

/-- `PaymentMethodView.handle_checkout` (views.py:231-301) for the PayPal
method.  `payRes` is the payment reference returned by
`PayPalPayment.create_payment` (`none` models an adapter failure),
`channelOk` whether the cart channel could be resolved for invoice
cancellation, `invoiceMsgId` the id of the invoice message that gets
posted. -/
def handleCheckout (s : ShopState) (cartId : Nat) (minimum : ℚ) (channelOk : Bool)
    (payRes : Option String) (invoiceMsgId : Nat) : CheckoutOutcome × ShopState :=
  match findCart s cartId with
  | none => (CheckoutOutcome.noCart, s)
  | some cart =>
    if cart.status = CartStatus.paid ∨ cart.status = CartStatus.completed ∨
        cart.status = CartStatus.closed then
      (CheckoutOutcome.alreadyProcessed, s)
    else if cart.status = CartStatus.pending_payment then
      (CheckoutOutcome.pendingExists, s)
    else if s.shopOpen = false ∧ cart.paymentId = none then
      (CheckoutOutcome.shopClosed, s)
    else if cartTotal cart < minimum then
      (CheckoutOutcome.belowMinimum, s)
    else
      let s1 := if cart.invoiceMessageId.isSome ∧ channelOk then cancelInvoice s cart else s
      match findCartIn s1.carts cartId with
      | none => (CheckoutOutcome.noCart, s1)
      | some _ =>
        match payRes with
        | none => (CheckoutOutcome.paymentError, s1)
        | some pid =>
          let s2 := { s1 with carts := updateCarts s1.carts cartId (fun c =>
              { c with paymentId := some pid, paymentMethod := some "paypal",
                       status := CartStatus.pending_payment }) }
          (CheckoutOutcome.proceed,
            { s2 with carts := updateCarts s2.carts cartId (fun c =>
                { c with invoiceMessageId := some invoiceMsgId }) })

/-- `CryptoCoinSelectionView.coin_select` (views.py:85-140): when the price
oracle and wallet address are available, one UPDATE sets
`payment_method = 'crypto_<COIN>'` and `status = 'pending_payment'`; if the
cart channel resolves, a second UPDATE stores the invoice message id. -/
def cryptoCoinSelect (s : ShopState) (cartId : Nat) (coin : String)
    (priceOk walletOk channelOk : Bool) (invoiceMsgId : Nat) : ShopState :=
  if priceOk && walletOk then
    let s1 := { s with carts := updateCarts s.carts cartId (fun c =>
        { c with paymentMethod := some ("crypto_" ++ coin),
                 status := CartStatus.pending_payment }) }
    if channelOk then
      { s1 with carts := updateCarts s1.carts cartId (fun c =>
          { c with invoiceMessageId := some invoiceMsgId }) }
    else s1
  else s

/-- `CryptoConfirmationView.confirm_payment` (views.py:147-151): the buyer
self-attests payment; the status is set to `pending_manual_verification`. -/
def cryptoConfirm (s : ShopState) (cartId : Nat) : ShopState :=
  { s with carts := updateCarts s.carts cartId (fun c =>
      { c with status := CartStatus.pending_manual_verification }) }

/-- `CancelInvoiceView.cancel_transaction` / the crypto Cancel button
(views.py:55-67, 172-181): fetch the row, then `cancel_invoice` on it. -/
def cancelTransaction (s : ShopState) (cartId : Nat) (channelOk : Bool) : ShopState :=
  match findCart s cartId with
  | none => s
  | some cart => if channelOk then cancelInvoice s cart else s

/-- Body of `ShopCog.check_pending_payments` (shop.py:308-345) for one cart
row: the row is handled only when it matches the polled WHERE clause
(`status = 'pending_payment' AND payment_method = 'paypal' AND payment_id
IS NOT NULL`) and its channel resolves.  `details` is the gateway status
reported by `get_payment_details`, `capture` the status reported by
`capture_payment` (`none` = adapter failure). -/
def checkPendingPaymentCart (s : ShopState) (cartId : Nat) (channelOk : Bool)
    (details capture : Option String) : ShopState :=
  match findCart s cartId with
  | none => s
  | some cart =>
    if cart.status = CartStatus.pending_payment ∧ cart.paymentMethod = some "paypal" ∧
        cart.paymentId.isSome then
      if channelOk then
        match details with
        | none => s
        | some st =>
          if st = "APPROVED" then
            match capture with
            | some cst =>
              if cst = "COMPLETED" then processPaidOrder s cart 0
              else cancelInvoice s cart
            | none => cancelInvoice s cart
          else s
      else s
    else s

/-- `process_webhook_payment` (webhook_server.py:42-73): the webhook entry
point guards on the cart not being `paid`/`completed`/`closed`, then runs
`process_paid_order` (with the default `credit_spent = 0`) or
`cancel_invoice` according to the pushed status. -/
def processWebhookPayment (s : ShopState) (cartId : Nat) (channelOk : Bool)
    (st : String) : ShopState :=
  match findCart s cartId with
  | none => s
  | some cart =>
    if cart.status = CartStatus.paid ∨ cart.status = CartStatus.completed ∨
        cart.status = CartStatus.closed then s
    else if channelOk = false then s
    else if st = "confirmed" ∨ st = "finished" ∨ st = "approved" then
      processPaidOrder s cart 0
    else if st = "failed" ∨ st = "refunded" ∨ st = "expired" ∨ st = "partially_paid" then
      cancelInvoice s cart
    else s

/-- `ShopCog.complete_crypto_order` (shop.py:86-106): admin manually
completes a crypto order; requires status `pending_manual_verification` and
a resolvable channel, then runs `process_paid_order` with the default
`credit_spent = 0`. -/
def completeCryptoOrder (s : ShopState) (cartId : Nat) (channelOk : Bool) : ShopState :=
  match findCart s cartId with
  | none => s
  | some cart =>
    if cart.status = CartStatus.pending_manual_verification then
      if channelOk then processPaidOrder s cart 0 else s
    else s

/-- `ShopCog.restock` (shop.py:139-141). -/
def restockItem (s : ShopState) (itemId : Nat) (qty : ℤ) : ShopState :=
  { s with items := updateItems s.items itemId qty }

/-- `ShopCog.set_status` (shop.py:176-185) writing the `shop_status`
setting. -/
def setShopOpen (s : ShopState) (b : Bool) : ShopState :=
  { s with shopOpen := b }

/-- The store-mutating operations of the cart engine, with the external
inputs (gateway responses, oracle availability, fresh ids) as parameters. -/
inductive Op where
  | cartAction (userId itemId : Nat) (qty : ℤ) (add : Bool) (newCartId : Nat)
  | credit (userId cartId : Nat) (amount : ℚ)
  | close (cartId : Nat)
  | complete (cartId : Nat)
  | checkout (cartId : Nat) (minimum : ℚ) (channelOk : Bool) (payRes : Option String)
      (invoiceMsgId : Nat)
  | cryptoSelect (cartId : Nat) (coin : String) (priceOk walletOk channelOk : Bool)
      (invoiceMsgId : Nat)
  | cryptoConfirm (cartId : Nat)
  | cancelTx (cartId : Nat) (channelOk : Bool)
  | poll (cartId : Nat) (channelOk : Bool) (details capture : Option String)
  | webhook (cartId : Nat) (channelOk : Bool) (st : String)
  | cryptoComplete (cartId : Nat) (channelOk : Bool)
  | restock (itemId : Nat) (qty : ℤ)
  | setShop (b : Bool)

/-- Dispatch one operation. -/
def step (s : ShopState) : Op → ShopState
  | Op.cartAction userId itemId qty add newCartId => handleCartAction s userId itemId qty add newCartId
  | Op.credit userId cartId amount => applyCredit s userId cartId amount
  | Op.close cartId => closeCart s cartId
  | Op.complete cartId => completeCart s cartId
  | Op.checkout cartId minimum channelOk payRes invoiceMsgId =>
      (handleCheckout s cartId minimum channelOk payRes invoiceMsgId).2
  | Op.cryptoSelect cartId coin priceOk walletOk channelOk invoiceMsgId =>
      cryptoCoinSelect s cartId coin priceOk walletOk channelOk invoiceMsgId
  | Op.cryptoConfirm cartId => cryptoConfirm s cartId
  | Op.cancelTx cartId channelOk => cancelTransaction s cartId channelOk
  | Op.poll cartId channelOk details capture => checkPendingPaymentCart s cartId channelOk details capture
  | Op.webhook cartId channelOk st => processWebhookPayment s cartId channelOk st
  | Op.cryptoComplete cartId channelOk => completeCryptoOrder s cartId channelOk
  | Op.restock itemId qty => restockItem s itemId qty
  | Op.setShop b => setShopOpen s b

/-- Run a sequence of operations. -/
def runOps (s : ShopState) : List Op → ShopState
  | [] => s
  | op :: ops => runOps (step s op) ops

/-! ### Basic lemmas about the row primitives -/

theorem updateCarts_of_forall_ne {l : List Cart} {i : Nat} {f : Cart → Cart}
    (h : ∀ c ∈ l, c.id ≠ i) : updateCarts l i f = l := by
  induction l with
  | nil => rfl
  | cons c cs ih =>
    simp only [updateCarts]
    rw [if_neg (h c (List.mem_cons_self c cs)), ih (fun c' hc' => h c' (List.mem_cons_of_mem c hc'))]

theorem mem_updateCarts {l : List Cart} {i : Nat} {f : Cart → Cart} {c : Cart}
    (h : c ∈ updateCarts l i f) : c ∈ l ∨ ∃ c0 ∈ l, c = f c0 := by
  induction l with
  | nil => cases h
  | cons c0 cs ih =>
    simp only [updateCarts] at h
    rcases List.mem_cons.mp h with h1 | h1
    · by_cases hid : c0.id = i
      · rw [if_pos hid] at h1
        exact Or.inr ⟨c0, List.mem_cons_self c0 cs, h1⟩
      · rw [if_neg hid] at h1
        exact Or.inl (h1 ▸ List.mem_cons_self c0 cs)
    · rcases ih h1 with h2 | ⟨c1, hc1, h2⟩
      · exact Or.inl (List.mem_cons_of_mem c0 h2)
      · exact Or.inr ⟨c1, List.mem_cons_of_mem c0 hc1, h2⟩

theorem updateCarts_comp (l : List Cart) (i : Nat) (f g : Cart → Cart)
    (hf : ∀ c, (f c).id = c.id) :
    updateCarts (updateCarts l i f) i g = updateCarts l i (fun c => g (f c)) := by
  induction l with
  | nil => rfl
  | cons c cs ih =>
    by_cases hid : c.id = i
    · simp [updateCarts, hid, hf c, ih]
    · simp [updateCarts, hid, ih]

theorem updateCarts_append (l m : List Cart) (i : Nat) (f : Cart → Cart) :
    updateCarts (l ++ m) i f = updateCarts l i f ++ updateCarts m i f := by
  induction l with
  | nil => rfl
  | cons c cs ih => simp [updateCarts, ih]

theorem findCartIn_updateCarts (l : List Cart) (i : Nat) (f : Cart → Cart)
    (hf : ∀ c, (f c).id = c.id) :
    findCartIn (updateCarts l i f) i = (findCartIn l i).map f := by
  induction l with
  | nil => rfl
  | cons c cs ih =>
    by_cases hid : c.id = i
    · simp [updateCarts, findCartIn, hid, hf c]
    · simp [updateCarts, findCartIn, hid, ih]

/-! ### C4 machinery: the invoice/status invariant -/

/-- A single cart row never holds an invoice reference while `active`. -/
def cartInvoiceOk (c : Cart) : Prop :=
  c.status = CartStatus.active → c.invoiceMessageId = none

instance : DecidablePred cartInvoiceOk := fun c => by
  unfold cartInvoiceOk; infer_instance

/-- The invariant over the whole `carts` table. -/
def CartsOk (l : List Cart) : Prop := ∀ c ∈ l, cartInvoiceOk c

instance : DecidablePred CartsOk := fun l => by
  unfold CartsOk; infer_instance

theorem cartsOk_updateCarts {l : List Cart} {i : Nat} {f : Cart → Cart}
    (hok : CartsOk l) (hf : ∀ c, cartInvoiceOk c → cartInvoiceOk (f c)) :
    CartsOk (updateCarts l i f) := by
  intro c hc
  rcases mem_updateCarts hc with h | ⟨c0, hc0, rfl⟩
  · exact hok c h
  · exact hf c0 (hok c0 hc0)

theorem cartsOk_append {l m : List Cart} (hl : CartsOk l) (hm : CartsOk m) :
    CartsOk (l ++ m) := by
  intro c hc
  rcases List.mem_append.mp hc with h | h
  · exact hl c h
  · exact hm c h

theorem cartsOk_cancelInvoice (s : ShopState) (cartSnap : Cart)
    (h : CartsOk s.carts) : CartsOk (cancelInvoice s cartSnap).carts := by
  unfold cancelInvoice
  split
  · exact cartsOk_updateCarts h (fun c _ _ => rfl)
  · exact h

theorem cartsOk_processPaidOrder (s : ShopState) (cartSnap : Cart) (d : ℚ)
    (h : CartsOk s.carts) : CartsOk (processPaidOrder s cartSnap d).carts := by
  unfold processPaidOrder
  exact cartsOk_updateCarts h (fun c _ hst => by cases hst)

theorem cartsOk_applyCredit (s : ShopState) (userId cartId : Nat) (amount : ℚ)
    (h : CartsOk s.carts) : CartsOk (applyCredit s userId cartId amount).carts := by
  unfold applyCredit
  split
  · exact h
  · split
    · exact h
    · split
      · exact h
      · split
        · exact h
        · dsimp only
          split
          · exact cartsOk_processPaidOrder _ _ _
              (cartsOk_updateCarts h (fun c hc hst => hc hst))
          · exact cartsOk_updateCarts h (fun c hc hst => hc hst)

theorem cartsOk_cartActionTail (s : ShopState) (cart : Cart) (itemId : Nat)
    (stockDelta : ℤ) (newLines : List (Nat × CartLine))
    (h : CartsOk s.carts) :
    CartsOk (cartActionTail s cart itemId stockDelta newLines).carts := by
  unfold cartActionTail
  dsimp only
  refine cartsOk_updateCarts ?_ (fun c hc hst => hc hst)
  split
  · exact cartsOk_cancelInvoice _ _ h
  · exact h

theorem cartsOk_newCartSingleton (cartId userId : Nat) :
    CartsOk [newCart cartId userId] := by
  intro c hc
  rcases List.mem_singleton.mp hc with rfl
  exact fun _ => rfl

theorem cartsOk_handleCartAction (s : ShopState) (userId itemId : Nat) (qty : ℤ)
    (add : Bool) (newCartId : Nat) (h : CartsOk s.carts) :
    CartsOk ((handleCartAction s userId itemId qty add newCartId).carts) := by
  unfold handleCartAction
  split
  · exact h
  · dsimp only
    cases hfound : findActiveCartIn s.carts userId with
    | none =>
      simp only [hfound]
      have h1 : CartsOk ({ s with carts := s.carts ++ [newCart newCartId userId]} : ShopState).carts :=
        cartsOk_append h (cartsOk_newCartSingleton newCartId userId)
      split
      · exact h1
      · split
        · exact h1
        · exact cartsOk_cartActionTail _ _ _ _ _ h1
      · exact h1
      · exact cartsOk_cartActionTail _ _ _ _ _ h1
    | some c0 =>
      simp only [hfound]
      split
      · exact h
      · split
        · exact h
        · exact cartsOk_cartActionTail _ _ _ _ _ h
      · exact h
      · exact cartsOk_cartActionTail _ _ _ _ _ h

theorem cartsOk_closeCart (s : ShopState) (cartId : Nat) (h : CartsOk s.carts) :
    CartsOk (closeCart s cartId).carts := by
  unfold closeCart
  split
  · exact h
  · exact cartsOk_updateCarts h (fun c _ hst => by cases hst)

theorem cartsOk_completeCart (s : ShopState) (cartId : Nat) (h : CartsOk s.carts) :
    CartsOk (completeCart s cartId).carts := by
  unfold completeCart
  split
  · exact h
  · exact cartsOk_updateCarts h (fun c _ hst => by cases hst)

theorem cartsOk_pendingInvoiceUpdate (l : List Cart) (i : Nat) (pid : String)
    (mid : Nat) (h : CartsOk l) :
    CartsOk (updateCarts (updateCarts l i (fun c =>
      { c with paymentId := some pid, paymentMethod := some "paypal",
               status := CartStatus.pending_payment })) i
      (fun c => { c with invoiceMessageId := some mid })) := by
  rw [updateCarts_comp l i (fun c => { c with paymentId := some pid, paymentMethod := some "paypal", status := CartStatus.pending_payment }) (fun c => { c with invoiceMessageId := some mid }) (fun c => rfl)]
  exact cartsOk_updateCarts h (fun c _ hst => by cases hst)

theorem cartsOk_cryptoInvoiceUpdate (l : List Cart) (i : Nat) (coin : String)
    (mid : Nat) (h : CartsOk l) :
    CartsOk (updateCarts (updateCarts l i (fun c =>
      { c with paymentMethod := some ("crypto_" ++ coin),
               status := CartStatus.pending_payment })) i
      (fun c => { c with invoiceMessageId := some mid })) := by
  rw [updateCarts_comp l i (fun c => { c with paymentMethod := some ("crypto_" ++ coin), status := CartStatus.pending_payment }) (fun c => { c with invoiceMessageId := some mid }) (fun c => rfl)]
  exact cartsOk_updateCarts h (fun c _ hst => by cases hst)

theorem cartsOk_handleCheckout (s : ShopState) (cartId : Nat) (minimum : ℚ)
    (channelOk : Bool) (payRes : Option String) (invoiceMsgId : Nat)
    (h : CartsOk s.carts) :
    CartsOk (handleCheckout s cartId minimum channelOk payRes invoiceMsgId).2.carts := by
  unfold handleCheckout
  split
  · exact h
  · split
    · exact h
    · split
      · exact h
      · split
        · exact h
        · split
          · exact h
          · dsimp only
            have hok1 : ∀ cart : Cart,
                CartsOk ((if cart.invoiceMessageId.isSome = true ∧ channelOk = true then cancelInvoice s cart else s).carts) := by
              intro cart
              split
              · exact cartsOk_cancelInvoice _ _ h
              · exact h
            split
            · exact hok1 _
            · split
              · exact hok1 _
              · dsimp only
                exact cartsOk_pendingInvoiceUpdate _ _ _ _ (hok1 _)

theorem cartsOk_cryptoCoinSelect (s : ShopState) (cartId : Nat) (coin : String)
    (priceOk walletOk channelOk : Bool) (invoiceMsgId : Nat) (h : CartsOk s.carts) :
    CartsOk (cryptoCoinSelect s cartId coin priceOk walletOk channelOk invoiceMsgId).carts := by
  unfold cryptoCoinSelect
  split
  · dsimp only
    split
    · exact cartsOk_cryptoInvoiceUpdate _ _ _ _ h
    · exact cartsOk_updateCarts h (fun c _ hst => by cases hst)
  · exact h

theorem cartsOk_cryptoConfirm (s : ShopState) (cartId : Nat) (h : CartsOk s.carts) :
    CartsOk (cryptoConfirm s cartId).carts := by
  unfold cryptoConfirm
  exact cartsOk_updateCarts h (fun c _ hst => by cases hst)

theorem cartsOk_cancelTransaction (s : ShopState) (cartId : Nat) (channelOk : Bool)
    (h : CartsOk s.carts) : CartsOk (cancelTransaction s cartId channelOk).carts := by
  unfold cancelTransaction
  split
  · exact h
  · split
    · exact cartsOk_cancelInvoice _ _ h
    · exact h

theorem cartsOk_checkPendingPaymentCart (s : ShopState) (cartId : Nat)
    (channelOk : Bool) (details capture : Option String) (h : CartsOk s.carts) :
    CartsOk (checkPendingPaymentCart s cartId channelOk details capture).carts := by
  unfold checkPendingPaymentCart
  split
  · exact h
  · split
    · split
      · split
        · exact h
        · split
          · split
            · split
              · exact cartsOk_processPaidOrder _ _ _ h
              · exact cartsOk_cancelInvoice _ _ h
            · exact cartsOk_cancelInvoice _ _ h
          · exact h
      · exact h
    · exact h

theorem cartsOk_processWebhookPayment (s : ShopState) (cartId : Nat)
    (channelOk : Bool) (st : String) (h : CartsOk s.carts) :
    CartsOk (processWebhookPayment s cartId channelOk st).carts := by
  unfold processWebhookPayment
  split
  · exact h
  · split
    · exact h
    · split
      · exact h
      · split
        · exact cartsOk_processPaidOrder _ _ _ h
        · split
          · exact cartsOk_cancelInvoice _ _ h
          · exact h

theorem cartsOk_completeCryptoOrder (s : ShopState) (cartId : Nat)
    (channelOk : Bool) (h : CartsOk s.carts) :
    CartsOk (completeCryptoOrder s cartId channelOk).carts := by
  unfold completeCryptoOrder
  split
  · exact h
  · split
    · split
      · exact cartsOk_processPaidOrder _ _ _ h
      · exact h
    · exact h

theorem cartsOk_step (s : ShopState) (op : Op) (h : CartsOk s.carts) :
    CartsOk ((step s op).carts) := by
  cases op with
  | cartAction userId itemId qty add newCartId => exact cartsOk_handleCartAction _ _ _ _ _ _ h
  | credit userId cartId amount => exact cartsOk_applyCredit _ _ _ _ h
  | close cartId => exact cartsOk_closeCart _ _ h
  | complete cartId => exact cartsOk_completeCart _ _ h
  | checkout cartId minimum channelOk payRes invoiceMsgId => exact cartsOk_handleCheckout _ _ _ _ _ _ h
  | cryptoSelect cartId coin priceOk walletOk channelOk invoiceMsgId => exact cartsOk_cryptoCoinSelect _ _ _ _ _ _ _ h
  | cryptoConfirm cartId => exact cartsOk_cryptoConfirm _ _ h
  | cancelTx cartId channelOk => exact cartsOk_cancelTransaction _ _ _ h
  | poll cartId channelOk details capture => exact cartsOk_checkPendingPaymentCart _ _ _ _ _ h
  | webhook cartId channelOk st => exact cartsOk_processWebhookPayment _ _ _ _ h
  | cryptoComplete cartId channelOk => exact cartsOk_completeCryptoOrder _ _ _ h
  | restock itemId qty => exact h
  | setShop b => exact h

/-! ### Observation lemmas -/

theorem findCartIn_eq_some_id {l : List Cart} {i : Nat} {c : Cart}
    (h : findCartIn l i = some c) : c.id = i := by
  induction l with
  | nil => cases h
  | cons c0 cs ih =>
    by_cases hid : c0.id = i
    · simp only [findCartIn, if_pos hid] at h
      cases h
      exact hid
    · simp only [findCartIn, if_neg hid] at h
      exact ih h

theorem lifetimeOf_processPaidOrder (s : ShopState) (cart : Cart) (d : ℚ) :
    lifetimeOf (processPaidOrder s cart d) cart.userId
      = lifetimeOf s cart.userId + (cartTotal cart - d) := by
  unfold processPaidOrder lifetimeOf upsertLifetime
  dsimp only
  rw [if_pos rfl]
  cases s.users cart.userId <;> simp

theorem balanceOf_processPaidOrder (s : ShopState) (cart : Cart) (d : ℚ) (v : Nat) :
    balanceOf (processPaidOrder s cart d) v = balanceOf s v := by
  unfold processPaidOrder balanceOf upsertLifetime
  dsimp only
  by_cases hv : v = cart.userId
  · subst hv
    rw [if_pos rfl]
    cases s.users cart.userId <;> simp
  · rw [if_neg hv]

theorem cartStatusOf_processPaidOrder_self (s : ShopState) (cart : Cart) (d : ℚ)
    (hfind : (findCartIn s.carts cart.id).isSome = true) :
    cartStatusOf (processPaidOrder s cart d) cart.id = some CartStatus.paid := by
  unfold cartStatusOf processPaidOrder findCart
  dsimp only
  rw [findCartIn_updateCarts]
  · cases hc : findCartIn s.carts cart.id with
    | none => rw [hc] at hfind; cases hfind
    | some c0 => simp [hc]
  · intro c
    rfl

/-! ### Concrete fixtures -/

/-- One catalog item `X` priced $10 with stock 5, keyed by id 1. -/
def demoItems : Nat → Option Item :=
  fun i => if i = 1 then some { price := 10, name := "X", quantity := 5 } else none

/-- A single user ledger row for user 7. -/
def demoUsersAt (b l : ℚ) : Nat → Option UserRow :=
  fun u => if u = 7 then some { balance := b, lifetimeSpent := l } else none

/-- A cart of user 7 that has already completed payment (status `paid`),
holding one unit of item 1 at $10. -/
def cexPaidCart : Cart :=
  { id := 1, userId := 7, lines := [(1, { quantity := 1, price := 10, name := "X" })],
    invoiceMessageId := none, paymentId := some "PAYID", creditApplied := 0,
    status := CartStatus.paid, paymentMethod := some "paypal" }

/-- Store state after `cexPaidCart`'s first completion credited $10 of
lifetime spend to user 7. -/
def cexPaidState : ShopState :=
  { items := demoItems, carts := [cexPaidCart], users := demoUsersAt 0 10, shopOpen := true }

/-- A `pending_payment` PayPal cart of user 7 with $2 of store credit
already applied and a $10 total. -/
def cexPollCart : Cart :=
  { id := 1, userId := 7, lines := [(1, { quantity := 1, price := 10, name := "X" })],
    invoiceMessageId := some 55, paymentId := some "PAYID", creditApplied := 2,
    status := CartStatus.pending_payment, paymentMethod := some "paypal" }

/-- Store state holding `cexPollCart`, awaiting payment reconciliation. -/
def cexPollState : ShopState :=
  { items := demoItems, carts := [cexPollCart], users := demoUsersAt 0 0, shopOpen := true }

/-! ### Claim C1 -/

/-- Claim C1: `process_paid_order` performs no status check whatsoever.
Applied to a cart snapshot that is already `paid` (its first completion
having credited the $10 total to the owner's lifetime spend), it applies
the financial effects again and lifetime spend reaches $20.  Order
completion is therefore not idempotent; the `paid`/`completed`/`closed`
guard the spec describes exists only in the webhook wrapper
(`process_webhook_payment`), not in the transition itself. -/
theorem processPaidOrder_missing_status_guard :
    cartStatusOf cexPaidState 1 = some CartStatus.paid ∧
    lifetimeOf cexPaidState 7 = 10 ∧
    lifetimeOf (processPaidOrder cexPaidState cexPaidCart 0) 7 = 20 := by
  refine ⟨rfl, ?_, ?_⟩
  · norm_num [lifetimeOf, cexPaidState, demoUsersAt]
  · norm_num [lifetimeOf, processPaidOrder, upsertLifetime, cexPaidState, cexPaidCart,
      demoUsersAt, cartTotal, linesTotal]

/-! ### Claim C2 -/

/-- Claim C2 counterexample: the reconciliation poll invokes
`process_paid_order(channel, cart)` without the `credit_spent` argument, so
completing `cexPollCart` (total $10, `credit_applied` $2) through the poll
credits the full $10 — not $10 − $2 — to the owner's lifetime spend. -/
theorem poll_completion_ignores_credit_cex :
    cartCreditOf cexPollState 1 = 2 ∧
    lifetimeOf (checkPendingPaymentCart cexPollState 1 true (some "APPROVED") (some "COMPLETED")) 7 = 10 ∧
    lifetimeOf (checkPendingPaymentCart cexPollState 1 true (some "APPROVED") (some "COMPLETED")) 7
      ≠ lifetimeOf cexPollState 7 + (cartTotal cexPollCart - cartCreditOf cexPollState 1) := by
  have h10 : lifetimeOf (checkPendingPaymentCart cexPollState 1 true (some "APPROVED") (some "COMPLETED")) 7 = 10 := by
    norm_num [checkPendingPaymentCart, findCart, findCartIn, cexPollState, cexPollCart,
      processPaidOrder, upsertLifetime, lifetimeOf, cartTotal, linesTotal, demoUsersAt]
  refine ⟨rfl, h10, ?_⟩
  rw [h10]
  norm_num [lifetimeOf, cexPollState, demoUsersAt, cartTotal, cexPollCart, linesTotal,
    cartCreditOf, findCart, findCartIn]

/-- Claim C2 (amended): when the reconciliation poll completes a
hosted-link payment (gateway `APPROVED`, capture `COMPLETED`) for a
matching `pending_payment` PayPal cart, the owner's lifetime spend
increases by the full cart total — the cart's stored `credit_applied` is
not subtracted, because the poll passes the default `credit_spent = 0`.
Only the immediate full-credit completion path passes the applied
credit. -/
theorem poll_completion_increments_full_total (s : ShopState) (cartId : Nat) (cart : Cart)
    (hfind : findCart s cartId = some cart)
    (hst : cart.status = CartStatus.pending_payment)
    (hm : cart.paymentMethod = some "paypal")
    (hp : cart.paymentId.isSome = true) :
    lifetimeOf (checkPendingPaymentCart s cartId true (some "APPROVED") (some "COMPLETED")) cart.userId
      = lifetimeOf s cart.userId + cartTotal cart := by
  unfold checkPendingPaymentCart
  simp only [hfind]
  rw [if_pos ⟨hst, hm, hp⟩]
  norm_num [lifetimeOf_processPaidOrder]

/-- Witness for the amended C2 theorem at the concrete fixture. -/
theorem poll_completion_increments_full_total_witness :
    lifetimeOf (checkPendingPaymentCart cexPollState 1 true (some "APPROVED") (some "COMPLETED")) 7
      = lifetimeOf cexPollState 7 + cartTotal cexPollCart :=
  poll_completion_increments_full_total cexPollState 1 cexPollCart rfl rfl rfl rfl

/-! ### Claim C4 -/

/-- Claim C4: across every store-mutating operation of the cart engine, a
cart row in `active` status never holds a non-null `invoice_message_id`:
every transition that sets the status back to `active` (`cancel_invoice`)
clears the invoice reference in the same UPDATE, and invoice references
are only stored together with (or after) a transition into
`pending_payment`. -/
theorem active_cart_never_holds_invoice :
    (∀ (s : ShopState) (op : Op), CartsOk s.carts → CartsOk ((step s op).carts)) ∧
    (∀ (s : ShopState) (ops : List Op), CartsOk s.carts → CartsOk ((runOps s ops).carts)) := by
  refine ⟨cartsOk_step, ?_⟩
  intro s ops h
  induction ops generalizing s with
  | nil => exact h
  | cons op ops ih => exact ih _ (cartsOk_step s op h)

/-- Witness for C4: the invariant holds of the pending-invoice fixture and
is preserved by a buyer-initiated invoice cancellation. -/
theorem active_cart_never_holds_invoice_witness :
    CartsOk cexPollState.carts ∧ CartsOk ((step cexPollState (Op.cancelTx 1 true)).carts) :=
  ⟨by decide, active_cart_never_holds_invoice.1 cexPollState (Op.cancelTx 1 true) (by decide)⟩

/-! ### Claim C3 -/

/-- An `active` cart of user 7 holding one unit of item 1 ($10 total), no
credit applied yet. -/
def cexCreditCart : Cart :=
  { id := 1, userId := 7, lines := [(1, { quantity := 1, price := 10, name := "X" })],
    invoiceMessageId := none, paymentId := none, creditApplied := 0,
    status := CartStatus.active, paymentMethod := none }

/-- Store state with `cexCreditCart` and user 7 holding $20 of credit. -/
def cexCreditState : ShopState :=
  { items := demoItems, carts := [cexCreditCart], users := demoUsersAt 20 0, shopOpen := true }

/-- Claim C3 counterexample: `apply_credit` caps the applied amount at the
FULL cart total (`min(amount, total_price)`, views.py:490), not at the
outstanding total.  Applying $6 twice to a $10 cart with a $20 balance is
accepted both times, leaving `credit_applied = $12` and an outstanding
total of −$2 — the outstanding total is driven below zero. -/
theorem apply_credit_overapplies_cex :
    cartCreditOf (applyCredit (applyCredit cexCreditState 7 1 6) 7 1 6) 1 = 12 ∧
    cartTotal cexCreditCart - cartCreditOf (applyCredit (applyCredit cexCreditState 7 1 6) 7 1 6) 1 < 0 := by
  have h12 : cartCreditOf (applyCredit (applyCredit cexCreditState 7 1 6) 7 1 6) 1 = 12 := by
    norm_num [applyCredit, findCart, findCartIn, cexCreditState, cexCreditCart, demoUsersAt,
      cartTotal, linesTotal, updateUsers, updateCarts, cartCreditOf, min_def, processPaidOrder,
      upsertLifetime]
  refine ⟨h12, ?_⟩
  rw [h12]
  norm_num [cartTotal, cexCreditCart, linesTotal]

/-- Claim C3 (amended): `apply_credit` rejects a request exceeding the
user's balance (leaving the store unmodified), and the debited amount
`min(amount, total)` never drives the balance below zero; but the cap is
the FULL cart total, not the outstanding total, so the applied credit is
`credit_applied + min(amount, total)` — repeated applications can exceed
the total (see the counterexample). -/
theorem apply_credit_balance_safe (s : ShopState) (userId cartId : Nat) (amount : ℚ)
    (u : UserRow) (hu : s.users userId = some u) (hb : 0 ≤ u.balance) :
    (amount > u.balance → applyCredit s userId cartId amount = s) ∧
    (0 ≤ balanceOf (applyCredit s userId cartId amount) userId) ∧
    (∀ cart, findCart s cartId = some cart → s.shopOpen = true → amount ≤ u.balance →
      cartCreditOf (applyCredit s userId cartId amount) cartId
        = cart.creditApplied + min amount (cartTotal cart)) := by
  refine ⟨?_, ?_, ?_⟩
  · intro hgt
    unfold applyCredit
    split
    · rfl
    · simp only [hu]
      rw [if_pos hgt]
  · unfold applyCredit
    split
    · simpa [balanceOf, hu] using hb
    · simp only [hu]
      by_cases hgt : amount > u.balance
      · rw [if_pos hgt]
        simpa [balanceOf, hu] using hb
      · rw [if_neg hgt]
        cases hfc : findCart s cartId with
        | none => simpa [balanceOf, hu] using hb
        | some cart =>
          simp only [hfc]
          have hmin : min amount (cartTotal cart) ≤ u.balance :=
            le_trans (min_le_left _ _) (not_lt.mp hgt)
          split
          · rw [balanceOf_processPaidOrder]
            simp [balanceOf, updateUsers, hu]
            exact Or.inl (not_lt.mp hgt)
          · simp [balanceOf, updateUsers, hu]
            exact Or.inl (not_lt.mp hgt)
  · intro cart hfc hopen hle
    have hid : cart.id = cartId := findCartIn_eq_some_id hfc
    unfold applyCredit
    rw [if_neg (by simp [hopen])]
    simp only [hu]
    rw [if_neg (not_lt.mpr hle)]
    simp only [hfc]
    split
    · unfold cartCreditOf findCart processPaidOrder
      dsimp only
      rw [hid, findCartIn_updateCarts]
      · rw [findCartIn_updateCarts]
        · rw [show findCartIn s.carts cartId = some cart from hfc]
          rfl
        · intro c
          rfl
      · intro c
        rfl
    · unfold cartCreditOf findCart
      dsimp only
      rw [findCartIn_updateCarts]
      · rw [show findCartIn s.carts cartId = some cart from hfc]
        rfl
      · intro c
        rfl

/-- Witness for the amended C3 theorem at the concrete fixture: a $25
request exceeds the $20 balance and is rejected; a $6 request is capped at
`min(6, 10) = 6` and the balance stays non-negative. -/
theorem apply_credit_balance_safe_witness :
    (applyCredit cexCreditState 7 1 25 = cexCreditState) ∧
    (0 ≤ balanceOf (applyCredit cexCreditState 7 1 6) 7) ∧
    cartCreditOf (applyCredit cexCreditState 7 1 6) 1
      = cexCreditCart.creditApplied + min 6 (cartTotal cexCreditCart) := by
  have h := apply_credit_balance_safe cexCreditState 7 1 25 { balance := 20, lifetimeSpent := 0 } rfl (by norm_num)
  have h6 := apply_credit_balance_safe cexCreditState 7 1 6 { balance := 20, lifetimeSpent := 0 } rfl (by norm_num)
  exact ⟨h.1 (by norm_num), h6.2.1, h6.2.2 cexCreditCart rfl rfl (by norm_num)⟩

/-! ### Claim C7 -/

/-- Claim C7: for an `active` cart with the shop open, checkout passes the
minimum gate exactly when the cart total is at least the configured
purchase minimum (the code rejects on `total_price < purchase_minimum`,
views.py:254): a total exactly equal to the minimum proceeds to payment
creation, and a strictly smaller total yields the minimum-not-met outcome
with the store unchanged. -/
theorem checkout_minimum_boundary (s : ShopState) (cartId : Nat) (minimum : ℚ)
    (cart : Cart) (pid : String) (mid : Nat) (channelOk : Bool)
    (hfind : findCart s cartId = some cart)
    (hst : cart.status = CartStatus.active)
    (hopen : s.shopOpen = true) :
    ((handleCheckout s cartId minimum channelOk (some pid) mid).1 = CheckoutOutcome.proceed
      ↔ minimum ≤ cartTotal cart) ∧
    (cartTotal cart < minimum →
      handleCheckout s cartId minimum channelOk (some pid) mid = (CheckoutOutcome.belowMinimum, s)) := by
  have hid : cart.id = cartId := findCartIn_eq_some_id hfind
  unfold handleCheckout
  simp only [hfind]
  rw [if_neg (by rw [hst]; intro h; rcases h with h | h | h <;> cases h)]
  rw [if_neg (by rw [hst]; intro h; cases h)]
  rw [if_neg (by rw [hopen]; rintro ⟨h, _⟩; cases h)]
  by_cases hlt : cartTotal cart < minimum
  · rw [if_pos hlt]
    exact ⟨iff_of_false (by intro h; cases h) (not_le.mpr hlt), fun _ => rfl⟩
  · rw [if_neg hlt]
    by_cases hic : (cart.invoiceMessageId.isSome = true ∧ channelOk = true)
    · rw [if_pos hic]
      unfold cancelInvoice
      rw [if_pos hic.1]
      dsimp only
      rw [hid, findCartIn_updateCarts]
      · simp only [hfind, findCart] at *
        rw [hfind]
        exact ⟨iff_of_true rfl (not_lt.mp hlt), fun h => absurd h hlt⟩
      · intro c
        rfl
    · rw [if_neg hic]
      have hfind2 : findCartIn s.carts cartId = some cart := hfind
      rw [hfind2]
      exact ⟨iff_of_true rfl (not_lt.mp hlt), fun h => absurd h hlt⟩

/-- A cart totalling exactly $0.50, the default purchase minimum. -/
def cexMinCart : Cart :=
  { id := 1, userId := 7, lines := [(1, { quantity := 1, price := 1/2, name := "X" })],
    invoiceMessageId := none, paymentId := none, creditApplied := 0,
    status := CartStatus.active, paymentMethod := none }

/-- Store state with the boundary cart. -/
def cexMinState : ShopState :=
  { items := demoItems, carts := [cexMinCart], users := demoUsersAt 0 0, shopOpen := true }

/-- Witness for C7 at the boundary: the $0.50 cart against a $0.50 minimum
is allowed to check out. -/
theorem checkout_minimum_boundary_witness :
    ((handleCheckout cexMinState 1 (1/2) true (some "PAYID") 9).1 = CheckoutOutcome.proceed
      ↔ (1/2 : ℚ) ≤ cartTotal cexMinCart) ∧
    (cartTotal cexMinCart < 1/2 →
      handleCheckout cexMinState 1 (1/2) true (some "PAYID") 9 = (CheckoutOutcome.belowMinimum, cexMinState)) :=
  checkout_minimum_boundary cexMinState 1 (1/2) cexMinCart "PAYID" 9 true rfl rfl rfl

/-! ### Claim C9 -/

/-- Store state with the $10 active cart of user 7, whose balance is $0. -/
def cexNegState : ShopState :=
  { items := demoItems, carts := [cexCreditCart], users := demoUsersAt 0 0, shopOpen := true }

/-- Claim C9 counterexample: a negative amount is not validated.  User 7
has balance $0 and requests −$5 of credit: the only guard,
`amount_to_apply > balance` (views.py:483), does not fire; the code
"applies" `min(−5, 10) = −5`, so the balance RISES to $5 and the cart's
`credit_applied` becomes −$5 — a state mutation instead of a synchronous
rejection. -/
theorem negative_credit_not_rejected_cex :
    balanceOf cexNegState 7 = 0 ∧
    balanceOf (applyCredit cexNegState 7 1 (-5)) 7 = 5 ∧
    cartCreditOf (applyCredit cexNegState 7 1 (-5)) 1 = -5 := by
  refine ⟨by norm_num [balanceOf, cexNegState, demoUsersAt], ?_, ?_⟩
  · norm_num [applyCredit, findCart, findCartIn, cexNegState, cexCreditCart, demoUsersAt,
      cartTotal, linesTotal, updateUsers, updateCarts, balanceOf, min_def, processPaidOrder,
      upsertLifetime]
  · norm_num [applyCredit, findCart, findCartIn, cexNegState, cexCreditCart, demoUsersAt,
      cartTotal, linesTotal, updateUsers, updateCarts, cartCreditOf, min_def, processPaidOrder,
      upsertLifetime]

/-- Claim C9 (amended): the three validation rejections the code does
implement are side-effect-free — an insufficient balance (or missing user
row) rejects `apply_credit` with the store unchanged; a quantity exceeding
stock rejects the add with the store unchanged when the buyer already has
an active cart (when they do not, the freshly inserted empty cart row
remains); a below-minimum total rejects checkout with the store unchanged.
Negative amounts are not validated at all (see the counterexample). -/
theorem validation_rejections_no_mutation :
    (∀ (s : ShopState) (userId cartId : Nat) (amount : ℚ) (u : UserRow),
      s.users userId = some u → amount > u.balance →
      applyCredit s userId cartId amount = s) ∧
    (∀ (s : ShopState) (userId cartId : Nat) (amount : ℚ),
      s.users userId = none → applyCredit s userId cartId amount = s) ∧
    (∀ (s : ShopState) (userId itemId : Nat) (qty : ℤ) (ncid : Nat) (it : Item) (c0 : Cart),
      s.items itemId = some it → it.quantity < qty →
      findActiveCartIn s.carts userId = some c0 →
      handleCartAction s userId itemId qty true ncid = s) ∧
    (∀ (s : ShopState) (userId itemId : Nat) (qty : ℤ) (ncid : Nat) (it : Item),
      s.shopOpen = true → s.items itemId = some it → it.quantity < qty →
      findActiveCartIn s.carts userId = none →
      handleCartAction s userId itemId qty true ncid
        = { s with carts := s.carts ++ [newCart ncid userId] }) ∧
    (∀ (s : ShopState) (cartId : Nat) (minimum : ℚ) (channelOk : Bool)
      (payRes : Option String) (mid : Nat) (cart : Cart),
      findCart s cartId = some cart → cart.status = CartStatus.active →
      s.shopOpen = true → cartTotal cart < minimum →
      handleCheckout s cartId minimum channelOk payRes mid
        = (CheckoutOutcome.belowMinimum, s)) := by
  refine ⟨?_, ?_, ?_, ?_, ?_⟩
  · intro s userId cartId amount u hu hgt
    unfold applyCredit
    split
    · rfl
    · simp only [hu]
      rw [if_pos hgt]
  · intro s userId cartId amount hu
    unfold applyCredit
    split
    · rfl
    · simp only [hu]
  · intro s userId itemId qty ncid it c0 hit hq hfound
    unfold handleCartAction
    split
    · rfl
    · dsimp only
      simp only [hfound, hit]
      rw [if_pos hq]
  · intro s userId itemId qty ncid it hopen hit hq hfound
    unfold handleCartAction
    rw [if_neg (by simp [hopen])]
    dsimp only
    simp only [hfound, hit]
    rw [if_pos hq]
  · intro s cartId minimum channelOk payRes mid cart hfind hst hopen hlt
    unfold handleCheckout
    simp only [hfind]
    rw [if_neg (by rw [hst]; intro h; rcases h with h | h | h <;> cases h)]
    rw [if_neg (by rw [hst]; intro h; cases h)]
    rw [if_neg (by rw [hopen]; rintro ⟨h, _⟩; cases h)]
    rw [if_pos hlt]

/-- Witness for the amended C9 theorem at the concrete fixtures: a $25
request against a $20 balance rejects unchanged; adding 9 units against a
stock of 5 rejects unchanged; a $0.49 total against a $0.50 minimum
rejects unchanged. -/
theorem validation_rejections_no_mutation_witness :
    applyCredit cexCreditState 7 1 25 = cexCreditState ∧
    handleCartAction cexCreditState 7 1 9 true 2 = cexCreditState ∧
    handleCheckout cexCreditState 1 (11 : ℚ) true (some "PAYID") 9
      = (CheckoutOutcome.belowMinimum, cexCreditState) := by
  refine ⟨?_, ?_, ?_⟩
  · exact validation_rejections_no_mutation.1 cexCreditState 7 1 25
      { balance := 20, lifetimeSpent := 0 } rfl (by norm_num)
  · exact validation_rejections_no_mutation.2.2.1 cexCreditState 7 1 9 2
      { price := 10, name := "X", quantity := 5 } cexCreditCart rfl (by norm_num) rfl
  · exact validation_rejections_no_mutation.2.2.2.2 cexCreditState 1 11 true (some "PAYID") 9
      cexCreditCart rfl rfl rfl (by norm_num [cartTotal, cexCreditCart, linesTotal])

/-! ### Stock bookkeeping lemmas -/

/-- Quantity on hand recorded in an item map (0 when the row is absent). -/
def itemQtyAt (items : Nat → Option Item) (i : Nat) : ℤ :=
  match items i with
  | some it => it.quantity
  | none => 0

theorem stockOf_eq_itemQtyAt (s : ShopState) (i : Nat) :
    stockOf s i = itemQtyAt s.items i := rfl

theorem isSome_updateItems (items : Nat → Option Item) (i j : Nat) (d : ℤ) :
    ((updateItems items i d) j).isSome = (items j).isSome := by
  simp only [updateItems]
  by_cases h : j = i
  · subst h
    rw [if_pos rfl]
    cases items j <;> simp
  · rw [if_neg h]

theorem itemQtyAt_updateItems_self (items : Nat → Option Item) (i : Nat) (d : ℤ)
    (hi : (items i).isSome = true) :
    itemQtyAt (updateItems items i d) i = itemQtyAt items i + d := by
  cases h : items i with
  | none => rw [h] at hi; cases hi
  | some it => simp [itemQtyAt, updateItems, h]

theorem itemQtyAt_updateItems_ne (items : Nat → Option Item) (i j : Nat) (d : ℤ)
    (h : j ≠ i) : itemQtyAt (updateItems items i d) j = itemQtyAt items j := by
  simp only [itemQtyAt, updateItems]
  rw [if_neg h]

theorem linesTotalQty_eq_zero_of_not_key (ls : List (Nat × CartLine)) (i : Nat)
    (h : i ∉ ls.map Prod.fst) : linesTotalQty ls i = 0 := by
  induction ls with
  | nil => rfl
  | cons p ps ih =>
    simp only [List.map_cons, List.mem_cons, not_or] at h
    simp only [linesTotalQty]
    rw [if_neg (fun hpi => h.1 hpi.symm), ih h.2, zero_add]

theorem linesTotalQty_of_mem_nodup {ls : List (Nat × CartLine)} {p : Nat × CartLine}
    (hnd : (ls.map Prod.fst).Nodup) (hp : p ∈ ls) : linesTotalQty ls p.1 = p.2.quantity := by
  induction ls with
  | nil => cases hp
  | cons q qs ih =>
    rw [List.map_cons, List.nodup_cons] at hnd
    rcases List.mem_cons.mp hp with h | h
    · subst h
      simp only [linesTotalQty]
      rw [linesTotalQty_eq_zero_of_not_key qs p.1 hnd.1]
      simp
    · have hne : q.1 ≠ p.1 := by
        intro hqp
        exact hnd.1 (hqp ▸ List.mem_map_of_mem Prod.fst h)
      simp only [linesTotalQty]
      rw [if_neg hne, ih hnd.2 h, zero_add]

theorem foldl_restoreStock (ls : List (Nat × CartLine)) (items : Nat → Option Item) (i : Nat)
    (hi : (items i).isSome = true) :
    itemQtyAt (ls.foldl (fun its p => updateItems its p.1 p.2.quantity) items) i
      = itemQtyAt items i + linesTotalQty ls i := by
  induction ls generalizing items with
  | nil => simp [linesTotalQty]
  | cons p ps ih =>
    rw [List.foldl_cons, ih _ (by rw [isSome_updateItems]; exact hi)]
    simp only [linesTotalQty]
    by_cases hpi : p.1 = i
    · rw [hpi, itemQtyAt_updateItems_self items i p.2.quantity hi, if_pos rfl]
      ring
    · rw [itemQtyAt_updateItems_ne items p.1 i p.2.quantity (fun h => hpi h.symm), if_neg hpi]
      ring

/-! ### Claim C6 -/

/-- Claim C6: closing an `active` cart restores to stock the exact
quantity of every line item, refunds the full `credit_applied` amount to
the owning user's balance, and sets the cart status to `closed`
(`CartView.close_cart`, views.py:514-535). -/
theorem close_cart_restores_refunds_closes (s : ShopState) (cartId : Nat) (cart : Cart)
    (u : UserRow)
    (hfind : findCart s cartId = some cart)
    (_hst : cart.status = CartStatus.active)
    (hu : s.users cart.userId = some u)
    (hcred : 0 ≤ cart.creditApplied)
    (hkeys : (cart.lines.map Prod.fst).Nodup)
    (hitems : ∀ p ∈ cart.lines, (s.items p.1).isSome = true) :
    (∀ p ∈ cart.lines, stockOf (closeCart s cartId) p.1 = stockOf s p.1 + p.2.quantity) ∧
    balanceOf (closeCart s cartId) cart.userId = u.balance + cart.creditApplied ∧
    cartStatusOf (closeCart s cartId) cartId = some CartStatus.closed := by
  unfold closeCart
  simp only [hfind]
  refine ⟨?_, ?_, ?_⟩
  · intro p hp
    rw [stockOf_eq_itemQtyAt, stockOf_eq_itemQtyAt]
    show itemQtyAt (cart.lines.foldl (fun its q => updateItems its q.1 q.2.quantity) s.items) p.1
      = itemQtyAt s.items p.1 + p.2.quantity
    rw [foldl_restoreStock cart.lines s.items p.1 (hitems p hp),
      linesTotalQty_of_mem_nodup hkeys hp]
  · show balanceOf _ cart.userId = _
    by_cases hpos : cart.creditApplied > 0
    · simp only [balanceOf, if_pos hpos]
      simp [updateUsers, hu]
    · have hz : cart.creditApplied = 0 := le_antisymm (not_lt.mp hpos) hcred
      simp only [balanceOf, if_neg hpos]
      simp [hu, hz]
  · unfold cartStatusOf findCart
    dsimp only
    rw [findCartIn_updateCarts]
    · have hfind2 : findCartIn s.carts cartId = some cart := hfind
      rw [hfind2]
      rfl
    · intro c
      rfl

/-- An `active` cart of user 7 holding 3 units of item X with $2 of credit
applied (the spec's closing scenario). -/
def cexCloseCart : Cart :=
  { id := 1, userId := 7, lines := [(1, { quantity := 3, price := 10, name := "X" })],
    invoiceMessageId := none, paymentId := none, creditApplied := 2,
    status := CartStatus.active, paymentMethod := none }

/-- Store state for the closing scenario: user 7 holds a $1 balance. -/
def cexCloseState : ShopState :=
  { items := demoItems, carts := [cexCloseCart], users := demoUsersAt 1 0, shopOpen := true }

/-- Witness for C6 at the spec scenario: stock += 3, balance += $2,
status → `closed`. -/
theorem close_cart_restores_refunds_closes_witness :
    stockOf (closeCart cexCloseState 1) 1 = stockOf cexCloseState 1 + 3 ∧
    balanceOf (closeCart cexCloseState 1) 7 = 1 + 2 ∧
    cartStatusOf (closeCart cexCloseState 1) 1 = some CartStatus.closed := by
  have h := close_cart_restores_refunds_closes cexCloseState 1 cexCloseCart
    { balance := 1, lifetimeSpent := 0 } rfl rfl rfl (by norm_num [cexCloseCart]) (by decide)
    (by intro p hp; rcases List.mem_singleton.mp hp with rfl; rfl)
  exact ⟨h.1 (1, { quantity := 3, price := 10, name := "X" }) (List.mem_singleton.mpr rfl),
    h.2.1, h.2.2⟩

/-! ### Claim C8 -/

/-- A `pending_payment` PayPal cart whose `invoice_message_id` is NULL
(the invoice message was never stored — e.g. posting it failed after the
status update). -/
def cexStuckCart : Cart :=
  { id := 1, userId := 7, lines := [(1, { quantity := 1, price := 10, name := "X" })],
    invoiceMessageId := none, paymentId := some "PAYID", creditApplied := 0,
    status := CartStatus.pending_payment, paymentMethod := some "paypal" }

/-- Store state holding the stuck cart. -/
def cexStuckState : ShopState :=
  { items := demoItems, carts := [cexStuckCart], users := demoUsersAt 0 0, shopOpen := true }

/-- Claim C8 counterexample: the reconciliation tick polls `cexStuckCart`
(`pending_payment`, hosted-link method, non-null payment reference), the
gateway reports `APPROVED`, and the capture fails — but `cancel_invoice`
does nothing when the fetched row has no `invoice_message_id`
(views.py:28), so the cart does NOT return to `active`: the whole store is
left unchanged and the cart stays `pending_payment`. -/
theorem poll_capture_failure_stuck_cex :
    checkPendingPaymentCart cexStuckState 1 true (some "APPROVED") none = cexStuckState ∧
    cartStatusOf cexStuckState 1 = some CartStatus.pending_payment :=
  ⟨rfl, rfl⟩

/-- Claim C8 (amended): on a reconciliation tick for a `pending_payment`
hosted-link cart with a non-null payment reference (and a resolvable
channel): a missing or non-`APPROVED` gateway status leaves the store
unchanged; an `APPROVED` status followed by a `COMPLETED` capture runs the
order-completion transition and the cart becomes `paid`; a failed or
non-`COMPLETED` capture runs `cancel_invoice`, which returns the cart to
`active` and clears the invoice reference *only when the cart holds a
non-null invoice reference* — a pending cart without one is left
unchanged. -/
theorem poll_reconciliation_behavior (s : ShopState) (cartId : Nat) (cart : Cart)
    (hfind : findCart s cartId = some cart)
    (hst : cart.status = CartStatus.pending_payment)
    (hm : cart.paymentMethod = some "paypal")
    (hp : cart.paymentId.isSome = true) :
    (∀ capture, checkPendingPaymentCart s cartId true none capture = s) ∧
    (∀ st capture, st ≠ "APPROVED" → checkPendingPaymentCart s cartId true (some st) capture = s) ∧
    (cartStatusOf (checkPendingPaymentCart s cartId true (some "APPROVED") (some "COMPLETED")) cartId
      = some CartStatus.paid) ∧
    (∀ capture, capture ≠ some "COMPLETED" →
      checkPendingPaymentCart s cartId true (some "APPROVED") capture = cancelInvoice s cart) ∧
    (cart.invoiceMessageId.isSome = true →
      cartStatusOf (cancelInvoice s cart) cartId = some CartStatus.active ∧
      cartInvoiceOf (cancelInvoice s cart) cartId = none) ∧
    (cart.invoiceMessageId = none → cancelInvoice s cart = s) := by
  have hid : cart.id = cartId := findCartIn_eq_some_id hfind
  refine ⟨?_, ?_, ?_, ?_, ?_, ?_⟩
  · intro capture
    unfold checkPendingPaymentCart
    simp only [hfind]
    rw [if_pos ⟨hst, hm, hp⟩, if_pos trivial]
  · intro st capture hne
    unfold checkPendingPaymentCart
    simp only [hfind]
    rw [if_pos ⟨hst, hm, hp⟩, if_pos trivial]
    rw [if_neg hne]
  · unfold checkPendingPaymentCart
    simp only [hfind]
    rw [if_pos ⟨hst, hm, hp⟩, if_pos trivial, if_pos trivial, if_pos trivial, ← hid]
    exact cartStatusOf_processPaidOrder_self s cart 0 (by rw [hid, ← findCart, hfind]; rfl)
  · intro capture hne
    unfold checkPendingPaymentCart
    simp only [hfind]
    rw [if_pos ⟨hst, hm, hp⟩, if_pos trivial, if_pos trivial]
    cases capture with
    | none => rfl
    | some cst =>
      show (if cst = "COMPLETED" then processPaidOrder s cart 0 else cancelInvoice s cart)
        = cancelInvoice s cart
      rw [if_neg (fun h : cst = "COMPLETED" => hne (by rw [h]))]
  · intro hinv
    unfold cancelInvoice
    rw [if_pos hinv]
    constructor
    · unfold cartStatusOf findCart
      dsimp only
      rw [hid, findCartIn_updateCarts]
      · have hfind2 : findCartIn s.carts cartId = some cart := hfind
        rw [hfind2]
        rfl
      · intro c
        rfl
    · unfold cartInvoiceOf findCart
      dsimp only
      rw [hid, findCartIn_updateCarts]
      · have hfind2 : findCartIn s.carts cartId = some cart := hfind
        rw [hfind2]
        rfl
      · intro c
        rfl
  · intro hnone
    unfold cancelInvoice
    rw [if_neg (by rw [hnone]; intro h; cases h)]

/-- Witness for the amended C8 theorem: at the stuck fixture, a failed
capture reduces to `cancel_invoice`, which leaves the store unchanged
because the invoice reference is NULL. -/
theorem poll_reconciliation_behavior_witness :
    checkPendingPaymentCart cexStuckState 1 true (some "APPROVED") none
      = cancelInvoice cexStuckState cexStuckCart ∧
    cancelInvoice cexStuckState cexStuckCart = cexStuckState := by
  have h := poll_reconciliation_behavior cexStuckState 1 cexStuckCart rfl rfl rfl rfl
  exact ⟨h.2.2.2.1 none (by intro hx; cases hx), h.2.2.2.2.2 rfl⟩

/-! ### Claim C5 machinery: stock conservation -/

/-- Primary keys of the `carts` table are unique (AUTO_INCREMENT). -/
def cartsIdsNodup (l : List Cart) : Prop := (l.map Cart.id).Nodup

/-- A cart's JSON dictionary has distinct item keys. -/
def cartKeysNodup (c : Cart) : Prop := (c.lines.map Prod.fst).Nodup

/-- Quantity of item `i` a cart row keeps reserved: its line quantity
unless the cart is `closed` (closing restores the stock). -/
def contribQty (c : Cart) (i : Nat) : ℤ :=
  if c.status = CartStatus.closed then 0 else linesTotalQty c.lines i

/-- Net quantity of item `i` retained by the non-closed carts of a list. -/
def retainedIn : List Cart → Nat → ℤ
  | [], _ => 0
  | c :: cs, i => contribQty c i + retainedIn cs i

/-- Net quantity of item `i` retained by the non-closed carts. -/
def retained (s : ShopState) (i : Nat) : ℤ := retainedIn s.carts i

/-- The add/remove/close operations the stock-conservation claim ranges
over, restricted to well-formed uses: a removal takes a positive quantity
no greater than the line held by the (existing) active cart, a close
targets a not-yet-closed cart whose line items still exist, and cart
creation uses a fresh AUTO_INCREMENT id. -/
def stockOpValid (s : ShopState) : Op → Bool
  | Op.cartAction userId itemId qty add newCartId =>
    (match findActiveCartIn s.carts userId with
     | some cart =>
       if add then true
       else
         match linesLookup cart.lines itemId with
         | some l => decide (0 < qty ∧ qty ≤ l.quantity)
         | none => false
     | none => add && decide (∀ c ∈ s.carts, c.id ≠ newCartId))
  | Op.close cartId =>
    (match findCartIn s.carts cartId with
     | some c => decide (c.status ≠ CartStatus.closed ∧
         ∀ p ∈ c.lines, (s.items p.1).isSome = true)
     | none => true)
  | _ => false

/-- Validity of a whole operation sequence, checked state by state. -/
def stockSeqValid (s : ShopState) : List Op → Bool
  | [] => true
  | op :: ops => stockOpValid s op && stockSeqValid (step s op) ops

theorem findActiveCartIn_spec {l : List Cart} {u : Nat} {c : Cart}
    (h : findActiveCartIn l u = some c) :
    c ∈ l ∧ c.userId = u ∧ c.status = CartStatus.active := by
  induction l with
  | nil => cases h
  | cons c0 cs ih =>
    by_cases hc0 : c0.userId = u ∧ c0.status = CartStatus.active
    · simp only [findActiveCartIn, if_pos hc0] at h
      injection h with h2
      subst h2
      exact ⟨List.mem_cons_self _ _, hc0⟩
    · simp only [findActiveCartIn, if_neg hc0] at h
      rcases ih h with ⟨h1, h2⟩
      exact ⟨List.mem_cons_of_mem c0 h1, h2⟩

theorem findCartIn_mem {l : List Cart} {i : Nat} {c : Cart}
    (h : findCartIn l i = some c) : c ∈ l := by
  induction l with
  | nil => cases h
  | cons c0 cs ih =>
    by_cases hc0 : c0.id = i
    · simp only [findCartIn, if_pos hc0] at h
      injection h with h2
      subst h2
      exact List.mem_cons_self _ _
    · simp only [findCartIn, if_neg hc0] at h
      exact List.mem_cons_of_mem c0 (ih h)

theorem findCartIn_of_mem_nodup {l : List Cart} {c : Cart}
    (hnd : (l.map Cart.id).Nodup) (hc : c ∈ l) : findCartIn l c.id = some c := by
  induction l with
  | nil => cases hc
  | cons c0 cs ih =>
    rw [List.map_cons, List.nodup_cons] at hnd
    rcases List.mem_cons.mp hc with h | h
    · subst h
      simp [findCartIn]
    · have hne : c0.id ≠ c.id := by
        intro he
        exact hnd.1 (he ▸ List.mem_map_of_mem Cart.id h)
      simp only [findCartIn, if_neg hne]
      exact ih hnd.2 h

theorem updateCarts_map_id (l : List Cart) (i : Nat) (f : Cart → Cart)
    (hf : ∀ c, (f c).id = c.id) :
    (updateCarts l i f).map Cart.id = l.map Cart.id := by
  induction l with
  | nil => rfl
  | cons c cs ih =>
    by_cases hid : c.id = i
    · simp [updateCarts, hid, hf c, ih]
    · simp [updateCarts, hid, ih]

theorem retainedIn_updateCarts (l : List Cart) (idx : Nat) (f : Cart → Cart) (i : Nat)
    (hnd : (l.map Cart.id).Nodup) {c0 : Cart} (hfind : findCartIn l idx = some c0) :
    retainedIn (updateCarts l idx f) i
      = retainedIn l i - contribQty c0 i + contribQty (f c0) i := by
  induction l with
  | nil => cases hfind
  | cons c cs ih =>
    rw [List.map_cons, List.nodup_cons] at hnd
    by_cases hid : c.id = idx
    · simp only [findCartIn, if_pos hid] at hfind
      cases hfind
      have hrest : updateCarts cs idx f = cs := by
        refine updateCarts_of_forall_ne ?_
        intro c' hc' he
        exact hnd.1 ((he.trans hid.symm) ▸ List.mem_map_of_mem Cart.id hc')
      simp only [updateCarts, if_pos hid, retainedIn, hrest]
      ring
    · simp only [findCartIn, if_neg hid] at hfind
      simp only [updateCarts, if_neg hid, retainedIn, ih hnd.2 hfind]
      ring

theorem retainedIn_append_single (l : List Cart) (c : Cart) (i : Nat) :
    retainedIn (l ++ [c]) i = retainedIn l i + contribQty c i := by
  induction l with
  | nil => simp [retainedIn]
  | cons c0 cs ih =>
    show contribQty c0 i + retainedIn (cs ++ [c]) i
      = contribQty c0 i + retainedIn cs i + contribQty c i
    rw [ih]
    ring

theorem linesTotalQty_eq_linesQty (ls : List (Nat × CartLine)) (i : Nat)
    (hnd : (ls.map Prod.fst).Nodup) : linesTotalQty ls i = linesQty ls i := by
  induction ls with
  | nil => rfl
  | cons p ps ih =>
    rw [List.map_cons, List.nodup_cons] at hnd
    by_cases hpi : p.1 = i
    · have hz : linesTotalQty ps i = 0 :=
        linesTotalQty_eq_zero_of_not_key ps i (hpi ▸ hnd.1)
      simp only [linesTotalQty, linesQty, linesLookup, if_pos hpi, hz]
      ring
    · simp only [linesTotalQty, linesQty, linesLookup, if_neg hpi]
      rw [ih hnd.2]
      simp [linesQty]

theorem linesTotalQty_linesSet_self (ls : List (Nat × CartLine)) (i : Nat) (l : CartLine)
    (hnd : (ls.map Prod.fst).Nodup) :
    linesTotalQty (linesSet ls i l) i = l.quantity := by
  induction ls with
  | nil => simp [linesSet, linesTotalQty]
  | cons p ps ih =>
    rw [List.map_cons, List.nodup_cons] at hnd
    by_cases hpi : p.1 = i
    · simp only [linesSet, if_pos hpi, linesTotalQty]
      rw [linesTotalQty_eq_zero_of_not_key ps i (hpi ▸ hnd.1)]
      simp
    · simp only [linesSet, if_neg hpi, linesTotalQty, ih hnd.2]
      simp [hpi]

theorem linesTotalQty_linesSet_ne (ls : List (Nat × CartLine)) (i j : Nat) (l : CartLine)
    (hne : j ≠ i) :
    linesTotalQty (linesSet ls i l) j = linesTotalQty ls j := by
  induction ls with
  | nil => simp [linesSet, linesTotalQty, Ne.symm hne]
  | cons p ps ih =>
    by_cases hpi : p.1 = i
    · simp [linesSet, if_pos hpi, linesTotalQty, hpi, Ne.symm hne]
    · simp [linesSet, if_neg hpi, linesTotalQty, ih]

theorem linesTotalQty_linesDelete_self (ls : List (Nat × CartLine)) (i : Nat) :
    linesTotalQty (linesDelete ls i) i = 0 := by
  induction ls with
  | nil => rfl
  | cons p ps ih =>
    by_cases hpi : p.1 = i
    · simp only [linesDelete, if_pos hpi, ih]
    · simp only [linesDelete, if_neg hpi, linesTotalQty, if_neg hpi, ih]
      ring

theorem linesTotalQty_linesDelete_ne (ls : List (Nat × CartLine)) (i j : Nat)
    (hne : j ≠ i) : linesTotalQty (linesDelete ls i) j = linesTotalQty ls j := by
  induction ls with
  | nil => rfl
  | cons p ps ih =>
    by_cases hpi : p.1 = i
    · have hpj : p.1 ≠ j := fun h => hne (h ▸ hpi)
      simp only [linesDelete, if_pos hpi, linesTotalQty, if_neg hpj, ih]
      ring
    · simp only [linesDelete, if_neg hpi, linesTotalQty, ih]

theorem mem_linesSet {ls : List (Nat × CartLine)} {i : Nat} {l : CartLine}
    {q : Nat × CartLine} (h : q ∈ linesSet ls i l) : q = (i, l) ∨ q ∈ ls := by
  induction ls with
  | nil => simpa [linesSet] using h
  | cons p ps ih =>
    by_cases hpi : p.1 = i
    · simp only [linesSet, if_pos hpi, List.mem_cons] at h
      rcases h with h | h
      · exact Or.inl h
      · exact Or.inr (List.mem_cons_of_mem p h)
    · simp only [linesSet, if_neg hpi, List.mem_cons] at h
      rcases h with h | h
      · exact Or.inr (h ▸ List.mem_cons_self p ps)
      · rcases ih h with h2 | h2
        · exact Or.inl h2
        · exact Or.inr (List.mem_cons_of_mem p h2)

theorem mem_linesDelete {ls : List (Nat × CartLine)} {i : Nat} {q : Nat × CartLine}
    (h : q ∈ linesDelete ls i) : q ∈ ls := by
  induction ls with
  | nil => cases h
  | cons p ps ih =>
    by_cases hpi : p.1 = i
    · simp only [linesDelete, if_pos hpi] at h
      exact List.mem_cons_of_mem p (ih h)
    · simp only [linesDelete, if_neg hpi, List.mem_cons] at h
      rcases h with h | h
      · exact h ▸ List.mem_cons_self p ps
      · exact List.mem_cons_of_mem p (ih h)

theorem linesSet_map_fst (ls : List (Nat × CartLine)) (i : Nat) (l : CartLine) :
    (linesSet ls i l).map Prod.fst
      = if i ∈ ls.map Prod.fst then ls.map Prod.fst else ls.map Prod.fst ++ [i] := by
  induction ls with
  | nil => simp [linesSet]
  | cons p ps ih =>
    by_cases hpi : p.1 = i
    · simp [linesSet, if_pos hpi, hpi]
    · simp only [linesSet, if_neg hpi, List.map_cons, ih]
      by_cases hmem : i ∈ ps.map Prod.fst
      · rw [if_pos hmem, if_pos (List.mem_cons_of_mem _ hmem)]
      · rw [if_neg hmem, if_neg (by
          intro h
          rcases List.mem_cons.mp h with h | h
          · exact hpi h.symm
          · exact hmem h)]
        simp

theorem linesSet_keys_nodup (ls : List (Nat × CartLine)) (i : Nat) (l : CartLine)
    (hnd : (ls.map Prod.fst).Nodup) :
    ((linesSet ls i l).map Prod.fst).Nodup := by
  rw [linesSet_map_fst]
  by_cases hmem : i ∈ ls.map Prod.fst
  · rw [if_pos hmem]
    exact hnd
  · rw [if_neg hmem]
    rw [List.nodup_append]
    exact ⟨hnd, List.nodup_singleton i, by
      intro a ha hb
      rcases List.mem_singleton.mp hb with rfl
      exact hmem ha⟩

theorem linesDelete_keys_nodup (ls : List (Nat × CartLine)) (i : Nat)
    (hnd : (ls.map Prod.fst).Nodup) :
    ((linesDelete ls i).map Prod.fst).Nodup := by
  induction ls with
  | nil => simp [linesDelete]
  | cons p ps ih =>
    rw [List.map_cons, List.nodup_cons] at hnd
    by_cases hpi : p.1 = i
    · simp only [linesDelete, if_pos hpi]
      exact ih hnd.2
    · simp only [linesDelete, if_neg hpi, List.map_cons, List.nodup_cons]
      refine ⟨?_, ih hnd.2⟩
      intro hmem
      rcases List.mem_map.mp hmem with ⟨q, hq, hq1⟩
      exact hnd.1 (hq1 ▸ List.mem_map_of_mem Prod.fst (mem_linesDelete hq))

theorem foldl_restoreStock_not_key (ls : List (Nat × CartLine)) (items : Nat → Option Item)
    (i : Nat) (h : i ∉ ls.map Prod.fst) :
    itemQtyAt (ls.foldl (fun its p => updateItems its p.1 p.2.quantity) items) i
      = itemQtyAt items i := by
  induction ls generalizing items with
  | nil => rfl
  | cons p ps ih =>
    simp only [List.map_cons, List.mem_cons, not_or] at h
    rw [List.foldl_cons, ih _ h.2,
      itemQtyAt_updateItems_ne items p.1 i p.2.quantity h.1]

theorem findCartIn_append_fresh (l : List Cart) (c : Cart)
    (h : ∀ c' ∈ l, c'.id ≠ c.id) : findCartIn (l ++ [c]) c.id = some c := by
  induction l with
  | nil => simp [findCartIn]
  | cons c0 cs ih =>
    rw [List.cons_append]
    simp only [findCartIn, if_neg (h c0 (List.mem_cons_self c0 cs))]
    exact ih (fun c' hc' => h c' (List.mem_cons_of_mem c0 hc'))

/-- A non-closed cart's retained contribution is its recorded line total. -/
theorem contribQty_eq (c : Cart) (h : ¬ c.status = CartStatus.closed) (i : Nat) :
    contribQty c i = linesTotalQty c.lines i := by
  unfold contribQty
  rw [if_neg h]

/-- Combined well-formedness and stock-conservation bookkeeping for the
common tail of `handle_cart_action`: when the written-back `cart_data`
changes the total recorded quantity of `itemId` by exactly the negation of
the stock delta (and leaves every other item unchanged), the sum
`stock + retained` is preserved at every item. -/
theorem cartActionTail_effects (s : ShopState) (cart : Cart) (itemId : Nat) (delta : ℤ)
    (newLines : List (Nat × CartLine))
    (hnd : cartsIdsNodup s.carts)
    (hkeysAll : ∀ c ∈ s.carts, cartKeysNodup c)
    (hfind : findCartIn s.carts cart.id = some cart)
    (hact : cart.status = CartStatus.active)
    (hit : (s.items itemId).isSome = true)
    (hnlkeys : (newLines.map Prod.fst).Nodup)
    (hnl : ∀ j, linesTotalQty newLines j
        = linesTotalQty cart.lines j - (if j = itemId then delta else 0)) :
    cartsIdsNodup (cartActionTail s cart itemId delta newLines).carts ∧
    (∀ c ∈ (cartActionTail s cart itemId delta newLines).carts, cartKeysNodup c) ∧
    (∀ i, itemQtyAt (cartActionTail s cart itemId delta newLines).items i
        + retainedIn (cartActionTail s cart itemId delta newLines).carts i
      = itemQtyAt s.items i + retainedIn s.carts i) := by
  have hnc : ¬ cart.status = CartStatus.closed := by
    rw [hact]
    intro h
    cases h
  unfold cartActionTail cancelInvoice
  dsimp only
  by_cases hinv : cart.invoiceMessageId.isSome = true
  · rw [if_pos hinv, if_pos hinv]
    dsimp only
    have hfind1 : findCartIn (updateCarts s.carts cart.id (fun c => { c with invoiceMessageId := none, paymentId := none, paymentMethod := none, status := CartStatus.active })) cart.id = some ({ cart with invoiceMessageId := none, paymentId := none, paymentMethod := none, status := CartStatus.active }) := by
      rw [findCartIn_updateCarts]
      · rw [hfind]
        rfl
      · intro c
        rfl
    have hnd1 : cartsIdsNodup (updateCarts s.carts cart.id (fun c => { c with invoiceMessageId := none, paymentId := none, paymentMethod := none, status := CartStatus.active })) := by
      unfold cartsIdsNodup
      rw [updateCarts_map_id]
      · exact hnd
      · intro c
        rfl
    refine ⟨?_, ?_, ?_⟩
    · unfold cartsIdsNodup
      rw [updateCarts_map_id]
      · exact hnd1
      · intro c
        rfl
    · intro c hc
      rcases mem_updateCarts hc with h | ⟨c0, hc0, rfl⟩
      · rcases mem_updateCarts h with h2 | ⟨c1, hc1, rfl⟩
        · exact hkeysAll c h2
        · exact hkeysAll c1 hc1
      · exact hnlkeys
    · intro i
      rw [retainedIn_updateCarts _ _ _ i hnd1 hfind1,
        retainedIn_updateCarts _ _ _ i hnd hfind]
      rw [contribQty_eq cart hnc i]
      rw [show contribQty ({ cart with invoiceMessageId := none, paymentId := none, paymentMethod := none, status := CartStatus.active, lines := newLines }) i = linesTotalQty newLines i from contribQty_eq _ (fun h => by cases h) i]
      rw [hnl i]
      by_cases hii : i = itemId
      · subst hii
        rw [itemQtyAt_updateItems_self s.items i delta hit, if_pos rfl]
        ring
      · rw [itemQtyAt_updateItems_ne s.items itemId i delta hii, if_neg hii]
        ring
  · rw [if_neg hinv]
    dsimp only
    refine ⟨?_, ?_, ?_⟩
    · unfold cartsIdsNodup
      rw [updateCarts_map_id]
      · exact hnd
      · intro c
        rfl
    · intro c hc
      rcases mem_updateCarts hc with h | ⟨c0, hc0, rfl⟩
      · exact hkeysAll c h
      · exact hnlkeys
    · intro i
      rw [retainedIn_updateCarts _ _ _ i hnd hfind]
      rw [show contribQty ({ cart with lines := newLines }) i = linesTotalQty newLines i from contribQty_eq ({ cart with lines := newLines }) (fun h => hnc h) i]
      rw [contribQty_eq cart hnc i, hnl i]
      by_cases hii : i = itemId
      · subst hii
        rw [itemQtyAt_updateItems_self s.items i delta hit, if_pos rfl]
        ring
      · rw [itemQtyAt_updateItems_ne s.items itemId i delta hii, if_neg hii]
        ring

/-- Inserting a fresh empty cart row preserves id-uniqueness, key
well-formedness, and does not change any retained quantity. -/
theorem appendNewCart_facts (s : ShopState) (cartId userId : Nat)
    (hnd : cartsIdsNodup s.carts) (hkeysAll : ∀ c ∈ s.carts, cartKeysNodup c)
    (hfresh : ∀ c ∈ s.carts, c.id ≠ cartId) :
    cartsIdsNodup (s.carts ++ [newCart cartId userId]) ∧
    (∀ c ∈ s.carts ++ [newCart cartId userId], cartKeysNodup c) ∧
    (∀ i, retainedIn (s.carts ++ [newCart cartId userId]) i = retainedIn s.carts i) := by
  refine ⟨?_, ?_, ?_⟩
  · unfold cartsIdsNodup
    rw [List.map_append, List.nodup_append]
    refine ⟨hnd, by simp, ?_⟩
    intro a ha hb
    simp only [List.map_cons, List.map_nil, List.mem_singleton] at hb
    rcases List.mem_map.mp ha with ⟨c, hc, hca⟩
    exact hfresh c hc (by rw [hca, hb]; rfl)
  · intro c hc
    rcases List.mem_append.mp hc with h | h
    · exact hkeysAll c h
    · rcases List.mem_singleton.mp h with rfl
      simp [cartKeysNodup, newCart]
  · intro i
    rw [retainedIn_append_single,
      show contribQty (newCart cartId userId) i = 0 from by simp [contribQty, newCart, linesTotalQty]]
    ring

/-- One valid add/remove/close operation preserves row well-formedness and
the per-item sum of stock on hand plus retained quantity. -/
theorem stockOp_preserves (s : ShopState) (op : Op)
    (hnd : cartsIdsNodup s.carts) (hkeysAll : ∀ c ∈ s.carts, cartKeysNodup c)
    (hv : stockOpValid s op = true) :
    cartsIdsNodup ((step s op).carts) ∧
    (∀ c ∈ (step s op).carts, cartKeysNodup c) ∧
    (∀ i, itemQtyAt (step s op).items i + retainedIn (step s op).carts i
        = itemQtyAt s.items i + retainedIn s.carts i) := by
  cases op with
  | credit a b c => simp [stockOpValid] at hv
  | complete a => simp [stockOpValid] at hv
  | checkout a b c d e => simp [stockOpValid] at hv
  | cryptoSelect a b c d e f => simp [stockOpValid] at hv
  | cryptoConfirm a => simp [stockOpValid] at hv
  | cancelTx a b => simp [stockOpValid] at hv
  | poll a b c d => simp [stockOpValid] at hv
  | webhook a b c => simp [stockOpValid] at hv
  | cryptoComplete a b => simp [stockOpValid] at hv
  | restock a b => simp [stockOpValid] at hv
  | setShop b => simp [stockOpValid] at hv
  | close cartId =>
    simp only [step]
    unfold closeCart
    cases hfc : findCart s cartId with
    | none =>
      simp only [hfc]
      exact ⟨hnd, hkeysAll, fun i => trivial⟩
    | some cart =>
      simp only [hfc]
      have hfc2 : findCartIn s.carts cartId = some cart := hfc
      simp only [stockOpValid, hfc2] at hv
      have hvp := of_decide_eq_true hv
      obtain ⟨hncl, hpres⟩ := hvp
      refine ⟨?_, ?_, ?_⟩
      · unfold cartsIdsNodup
        rw [updateCarts_map_id]
        · exact hnd
        · intro c
          rfl
      · intro c hc
        rcases mem_updateCarts hc with h | ⟨c0, hc0, rfl⟩
        · exact hkeysAll c h
        · exact hkeysAll c0 hc0
      · intro i
        rw [retainedIn_updateCarts _ _ _ i hnd hfc2]
        rw [contribQty_eq cart hncl i]
        rw [show contribQty ({ cart with status := CartStatus.closed }) i = 0 from by unfold contribQty; rw [if_pos rfl]]
        by_cases hsome : (s.items i).isSome = true
        · rw [foldl_restoreStock cart.lines s.items i hsome]
          ring
        · have hnk : i ∉ cart.lines.map Prod.fst := by
            intro hmem
            rcases List.mem_map.mp hmem with ⟨p, hp, hp1⟩
            exact hsome (hp1 ▸ hpres p hp)
          rw [foldl_restoreStock_not_key cart.lines s.items i hnk,
            linesTotalQty_eq_zero_of_not_key cart.lines i hnk]
          ring
  | cartAction userId itemId qty add newCartId =>
    simp only [step]
    unfold handleCartAction
    by_cases hopen : s.shopOpen = false
    · rw [if_pos hopen]
      exact ⟨hnd, hkeysAll, fun i => rfl⟩
    · rw [if_neg hopen]
      dsimp only
      cases hfound : findActiveCartIn s.carts userId with
      | some cart =>
        simp only [hfound]
        obtain ⟨hmem, huser, hact⟩ := findActiveCartIn_spec hfound
        have hfind : findCartIn s.carts cart.id = some cart :=
          findCartIn_of_mem_nodup hnd hmem
        have hknd : cartKeysNodup cart := hkeysAll cart hmem
        cases add with
        | true =>
          cases hit : s.items itemId with
          | none =>
            simp only [hit]
            exact ⟨hnd, hkeysAll, fun i => trivial⟩
          | some it =>
            simp only [hit]
            by_cases hstock : it.quantity < qty
            · rw [if_pos hstock]
              exact ⟨hnd, hkeysAll, fun i => rfl⟩
            · rw [if_neg hstock]
              refine cartActionTail_effects s cart itemId (-qty) _ hnd hkeysAll hfind hact
                (by rw [hit]; rfl) (linesSet_keys_nodup _ _ _ hknd) ?_
              intro j
              by_cases hji : j = itemId
              · subst hji
                rw [linesTotalQty_linesSet_self _ _ _ hknd, if_pos rfl,
                  linesTotalQty_eq_linesQty _ _ hknd]
                ring
              · rw [linesTotalQty_linesSet_ne _ _ _ _ hji, if_neg hji]
                ring
        | false =>
          have hv2 := hv
          simp only [stockOpValid, hfound] at hv2
          cases hlook : linesLookup cart.lines itemId with
          | none =>
            rw [hlook] at hv2
            cases hv2
          | some l =>
            rw [hlook] at hv2
            have hql := of_decide_eq_true hv2
            cases hit : s.items itemId with
            | none =>
              simp only [hit]
              exact ⟨hnd, hkeysAll, fun i => trivial⟩
            | some it =>
              simp only [hit, hlook]
              have hlq : linesQty cart.lines itemId = l.quantity := by
                unfold linesQty
                rw [hlook]
              by_cases hdel : l.quantity - qty ≤ 0
              · rw [if_pos hdel]
                have heq : l.quantity = qty := le_antisymm (by linarith) hql.2
                refine cartActionTail_effects s cart itemId qty _ hnd hkeysAll hfind hact
                  (by rw [hit]; rfl) (linesDelete_keys_nodup _ _ hknd) ?_
                intro j
                by_cases hji : j = itemId
                · subst hji
                  rw [linesTotalQty_linesDelete_self, if_pos rfl,
                    linesTotalQty_eq_linesQty _ _ hknd, hlq, heq]
                  ring
                · rw [linesTotalQty_linesDelete_ne _ _ _ hji, if_neg hji]
                  ring
              · rw [if_neg hdel]
                refine cartActionTail_effects s cart itemId qty _ hnd hkeysAll hfind hact
                  (by rw [hit]; rfl) (linesSet_keys_nodup _ _ _ hknd) ?_
                intro j
                by_cases hji : j = itemId
                · subst hji
                  rw [linesTotalQty_linesSet_self _ _ _ hknd, if_pos rfl,
                    linesTotalQty_eq_linesQty _ _ hknd, hlq]
                · rw [linesTotalQty_linesSet_ne _ _ _ _ hji, if_neg hji]
                  ring
      | none =>
        simp only [hfound]
        have hv2 := hv
        simp only [stockOpValid, hfound] at hv2
        rw [Bool.and_eq_true] at hv2
        obtain ⟨hadd, hfresh0⟩ := hv2
        have hfresh := of_decide_eq_true hfresh0
        have happ := appendNewCart_facts s newCartId userId hnd hkeysAll hfresh
        subst hadd
        cases hit : s.items itemId with
        | none =>
          simp only [hit]
          exact ⟨happ.1, happ.2.1, fun i => by
            show itemQtyAt s.items i + retainedIn (s.carts ++ [newCart newCartId userId]) i = _
            rw [happ.2.2 i]⟩
        | some it =>
          simp only [hit]
          by_cases hstock : it.quantity < qty
          · rw [if_pos hstock]
            exact ⟨happ.1, happ.2.1, fun i => by
              show itemQtyAt s.items i + retainedIn (s.carts ++ [newCart newCartId userId]) i = _
              rw [happ.2.2 i]⟩
          · rw [if_neg hstock]
            have hfind1 : findCartIn (s.carts ++ [newCart newCartId userId])
                (newCart newCartId userId).id = some (newCart newCartId userId) :=
              findCartIn_append_fresh s.carts (newCart newCartId userId) hfresh
            have h1 := cartActionTail_effects
              ({ s with carts := s.carts ++ [newCart newCartId userId] })
              (newCart newCartId userId) itemId (-qty)
              (linesSet (newCart newCartId userId).lines itemId
                { quantity := linesQty (newCart newCartId userId).lines itemId + qty,
                  price := it.price, name := it.name })
              happ.1 happ.2.1 hfind1 rfl (by rw [show ({ s with carts := s.carts ++ [newCart newCartId userId] } : ShopState).items = s.items from rfl, hit]; rfl)
              (linesSet_keys_nodup _ _ _ (by simp [newCart]))
              ?_
            · refine ⟨h1.1, h1.2.1, ?_⟩
              intro i
              rw [h1.2.2 i]
              show itemQtyAt s.items i + retainedIn (s.carts ++ [newCart newCartId userId]) i = _
              rw [happ.2.2 i]
            · intro j
              by_cases hji : j = itemId
              · subst hji
                rw [linesTotalQty_linesSet_self _ _ _ (by simp [newCart]), if_pos rfl]
                show linesQty ([] : List (Nat × CartLine)) j + qty = linesTotalQty ([] : List (Nat × CartLine)) j - (-qty)
                simp [linesQty, linesLookup, linesTotalQty]
              · rw [linesTotalQty_linesSet_ne _ _ _ _ hji, if_neg hji]
                ring

theorem stockSeq_preserves (s : ShopState) (ops : List Op)
    (hnd : cartsIdsNodup s.carts) (hkeysAll : ∀ c ∈ s.carts, cartKeysNodup c)
    (hv : stockSeqValid s ops = true) :
    ∀ i, itemQtyAt (runOps s ops).items i + retainedIn (runOps s ops).carts i
        = itemQtyAt s.items i + retainedIn s.carts i := by
  induction ops generalizing s with
  | nil => intro i; rfl
  | cons op ops ih =>
    simp only [stockSeqValid, Bool.and_eq_true] at hv
    have h1 := stockOp_preserves s op hnd hkeysAll hv.1
    intro i
    show itemQtyAt (runOps (step s op) ops).items i + retainedIn (runOps (step s op) ops).carts i = _
    rw [ih (step s op) h1.1 h1.2.1 hv.2 i, h1.2.2 i]

/-- An item shelf with item 1 in stock and no carts yet. -/
def cexStockState : ShopState :=
  { items := demoItems, carts := [], users := demoUsersAt 0 0, shopOpen := true }

/-- Claim C5 counterexample: user 7 adds 2 units of item 1 (stock 5 → 3),
then requests removal of 5 units.  The remove branch restores the full
requested quantity unconditionally (`UPDATE items SET quantity = quantity
+ %s`, views.py:432) before looking at the held line, so stock becomes 8
and the 2-unit line is deleted: the final stock 8 differs from initial
stock − retained = 5 − 0, violating the conservation law. -/
theorem remove_over_held_breaks_conservation_cex :
    stockOf (runOps cexStockState [Op.cartAction 7 1 2 true 1, Op.cartAction 7 1 5 false 1]) 1 = 8 ∧
    retained (runOps cexStockState [Op.cartAction 7 1 2 true 1, Op.cartAction 7 1 5 false 1]) 1 = 0 ∧
    stockOf cexStockState 1 = 5 ∧ (8 : ℤ) ≠ 5 - 0 := by
  refine ⟨by decide, by decide, rfl, by decide⟩

/-- Claim C5 (amended): adding N units decrements stock by N and removing
or closing restores held units, with the conservation law `final stock =
initial stock − quantity retained by non-closed carts` holding for every
sequence of add/remove/close operations that is well-formed: each removal
takes a positive quantity no greater than the line actually held by the
buyer's active cart, closes target not-yet-closed carts, and new carts get
fresh ids.  (Unrestricted removals break the law — see the
counterexample.) -/
theorem stock_conservation_valid_ops (s : ShopState) (ops : List Op) (i : Nat)
    (h0 : s.carts = []) (hv : stockSeqValid s ops = true) :
    stockOf (runOps s ops) i = stockOf s i - retained (runOps s ops) i := by
  have hnd : cartsIdsNodup s.carts := by
    rw [h0]
    exact List.nodup_nil
  have hk : ∀ c ∈ s.carts, cartKeysNodup c := by
    rw [h0]
    intro c hc
    cases hc
  have h := stockSeq_preserves s ops hnd hk hv i
  rw [stockOf_eq_itemQtyAt, stockOf_eq_itemQtyAt]
  unfold retained
  have hr0 : retainedIn s.carts i = 0 := by
    rw [h0]
    rfl
  rw [hr0] at h
  linarith

/-- Witness for the amended C5 theorem: add 2 units, remove 2 units, close
the cart — a valid sequence; the conservation law holds at item 1. -/
theorem stock_conservation_valid_ops_witness :
    stockSeqValid cexStockState
      [Op.cartAction 7 1 2 true 1, Op.cartAction 7 1 2 false 1, Op.close 1] = true ∧
    stockOf (runOps cexStockState
      [Op.cartAction 7 1 2 true 1, Op.cartAction 7 1 2 false 1, Op.close 1]) 1
      = stockOf cexStockState 1 - retained (runOps cexStockState
          [Op.cartAction 7 1 2 true 1, Op.cartAction 7 1 2 false 1, Op.close 1]) 1 :=
  ⟨by decide, stock_conservation_valid_ops cexStockState
    [Op.cartAction 7 1 2 true 1, Op.cartAction 7 1 2 false 1, Op.close 1] 1 rfl (by decide)⟩

/-! ### Claim C10: the ticket system -/

/-- Status column of the `tickets` table (schema default `open`). -/
inductive TicketStatus where
  | opened
  | closed
deriving DecidableEq, Repr

/-- A row of the `tickets` table (fields used by the ticket logic). -/
structure Ticket where
  userId : Nat
  channelId : Nat
  status : TicketStatus
deriving DecidableEq, Repr

/-- `SELECT * FROM tickets WHERE user_id = %s AND status = 'open'`
(views.py:556) — whether a row exists. -/
def hasOpenTicket : List Ticket → Nat → Bool
  | [], _ => false
  | t :: ts, u => decide (t.userId = u ∧ t.status = TicketStatus.opened) || hasOpenTicket ts u

/-- `TicketCreationView.open_ticket` (views.py:553-570): refuse when the
user already has an open ticket; otherwise insert a new row whose status
takes the schema default `open`. -/
def openTicket (ts : List Ticket) (userId channelId : Nat) : List Ticket :=
  if hasOpenTicket ts userId then ts
  else ts ++ [{ userId := userId, channelId := channelId, status := TicketStatus.opened }]

/-- `TicketChannelView.close_ticket` (views.py:574-581):
`UPDATE tickets SET status = 'closed' WHERE channel_id = %s`. -/
def closeTicket : List Ticket → Nat → List Ticket
  | [], _ => []
  | t :: ts, ch =>
    (if t.channelId = ch then { t with status := TicketStatus.closed } else t) :: closeTicket ts ch

/-- `TicketCog.purge_closed_tickets` (ticket.py:40-54):
`DELETE FROM tickets WHERE status = 'closed'`. -/
def purgeClosedTickets : List Ticket → List Ticket
  | [] => []
  | t :: ts =>
    if t.status = TicketStatus.closed then purgeClosedTickets ts
    else t :: purgeClosedTickets ts

/-- The ticket-mutating operations. -/
inductive TicketOp where
  | openT (userId channelId : Nat)
  | closeT (channelId : Nat)
  | purgeT

def ticketStep (ts : List Ticket) : TicketOp → List Ticket
  | TicketOp.openT u ch => openTicket ts u ch
  | TicketOp.closeT ch => closeTicket ts ch
  | TicketOp.purgeT => purgeClosedTickets ts

def runTicketOps (ts : List Ticket) : List TicketOp → List Ticket
  | [] => ts
  | op :: ops => runTicketOps (ticketStep ts op) ops

/-- Number of open tickets a user holds. -/
def openCount : List Ticket → Nat → Nat
  | [], _ => 0
  | t :: ts, u =>
    (if t.userId = u ∧ t.status = TicketStatus.opened then 1 else 0) + openCount ts u

theorem openCount_append (ts ts2 : List Ticket) (u : Nat) :
    openCount (ts ++ ts2) u = openCount ts u + openCount ts2 u := by
  induction ts with
  | nil => simp [openCount]
  | cons t ts ih =>
    show (if t.userId = u ∧ t.status = TicketStatus.opened then 1 else 0) + openCount (ts ++ ts2) u = _
    rw [ih]
    simp [openCount]
    ring

theorem openCount_zero_of_not_hasOpen (ts : List Ticket) (u : Nat)
    (h : hasOpenTicket ts u = false) : openCount ts u = 0 := by
  induction ts with
  | nil => rfl
  | cons t ts ih =>
    simp only [hasOpenTicket, Bool.or_eq_false_iff] at h
    simp only [openCount]
    rw [if_neg (of_decide_eq_false h.1), ih h.2]

theorem openCount_close_le (ts : List Ticket) (ch u : Nat) :
    openCount (closeTicket ts ch) u ≤ openCount ts u := by
  induction ts with
  | nil => exact le_refl _
  | cons t ts ih =>
    simp only [closeTicket, openCount]
    by_cases hch : t.channelId = ch
    · rw [if_pos hch]
      show (if t.userId = u ∧ TicketStatus.closed = TicketStatus.opened then 1 else 0) + _ ≤ _
      rw [if_neg (by rintro ⟨_, h2⟩; cases h2)]
      calc 0 + openCount (closeTicket ts ch) u = openCount (closeTicket ts ch) u := by ring
        _ ≤ openCount ts u := ih
        _ ≤ (if t.userId = u ∧ t.status = TicketStatus.opened then 1 else 0) + openCount ts u :=
            Nat.le_add_left _ _
    · rw [if_neg hch]
      show (if t.userId = u ∧ t.status = TicketStatus.opened then 1 else 0) + _ ≤ _
      exact Nat.add_le_add_left ih _

theorem openCount_purge_le (ts : List Ticket) (u : Nat) :
    openCount (purgeClosedTickets ts) u ≤ openCount ts u := by
  induction ts with
  | nil => exact le_refl _
  | cons t ts ih =>
    simp only [purgeClosedTickets, openCount]
    by_cases hcl : t.status = TicketStatus.closed
    · rw [if_pos hcl]
      exact le_trans ih (Nat.le_add_left _ _)
    · rw [if_neg hcl]
      show (if t.userId = u ∧ t.status = TicketStatus.opened then 1 else 0) + _ ≤ _
      exact Nat.add_le_add_left ih _

theorem ticketStep_preserves (ts : List Ticket) (op : TicketOp)
    (h : ∀ u, openCount ts u ≤ 1) : ∀ u, openCount (ticketStep ts op) u ≤ 1 := by
  cases op with
  | openT uid ch =>
    intro u
    show openCount (openTicket ts uid ch) u ≤ 1
    unfold openTicket
    by_cases hh : hasOpenTicket ts uid = true
    · rw [if_pos hh]
      exact h u
    · have hfalse : hasOpenTicket ts uid = false := by
        cases hb : hasOpenTicket ts uid with
        | true => exact absurd hb hh
        | false => rfl
      rw [if_neg hh, openCount_append]
      by_cases huu : u = uid
      · subst huu
        rw [openCount_zero_of_not_hasOpen ts u hfalse]
        simp [openCount]
      · have hne : ¬(uid = u ∧ TicketStatus.opened = TicketStatus.opened) := by
          rintro ⟨h1, _⟩
          exact huu h1.symm
        show openCount ts u + ((if uid = u ∧ TicketStatus.opened = TicketStatus.opened then 1 else 0) + 0) ≤ 1
        rw [if_neg hne]
        calc openCount ts u + (0 + 0) = openCount ts u := by ring
          _ ≤ 1 := h u
  | closeT ch =>
    intro u
    exact le_trans (openCount_close_le ts ch u) (h u)
  | purgeT =>
    intro u
    exact le_trans (openCount_purge_le ts u) (h u)

/-- Claim C10: `open_ticket` refuses to insert a row while the user
already has an `open` ticket, so starting from an empty `tickets` table,
after any sequence of open/close/purge operations every user holds at most
one open ticket. -/
theorem at_most_one_open_ticket :
    (∀ (ts : List Ticket) (userId channelId : Nat),
      hasOpenTicket ts userId = true → openTicket ts userId channelId = ts) ∧
    (∀ (ops : List TicketOp) (userId : Nat),
      openCount (runTicketOps [] ops) userId ≤ 1) := by
  constructor
  · intro ts userId channelId h
    unfold openTicket
    rw [if_pos h]
  · have hrun : ∀ (ops : List TicketOp) (ts : List Ticket),
        (∀ u, openCount ts u ≤ 1) → ∀ u, openCount (runTicketOps ts ops) u ≤ 1 := by
      intro ops
      induction ops with
      | nil =>
        intro ts h u
        exact h u
      | cons op ops ih =>
        intro ts h u
        exact ih (ticketStep ts op) (ticketStep_preserves ts op h) u
    intro ops userId
    exact hrun ops [] (fun u => Nat.zero_le 1) userId

/-- Witness for C10: a second open request by user 7 is refused, and after
two open attempts from an empty table user 7 holds one open ticket. -/
theorem at_most_one_open_ticket_witness :
    openTicket [{ userId := 7, channelId := 3, status := TicketStatus.opened }] 7 9
      = [{ userId := 7, channelId := 3, status := TicketStatus.opened }] ∧
    openCount (runTicketOps [] [TicketOp.openT 7 3, TicketOp.openT 7 9]) 7 ≤ 1 :=
  ⟨at_most_one_open_ticket.1 _ 7 9 (by decide), at_most_one_open_ticket.2 _ 7⟩

end ShopBot
